import Mathlib

/-!
Verification development for the GrainFS encrypted-filesystem core.

The Go source is shallowly embedded:

* byte strings are `List Nat` (each element one byte);
* Go path strings are embedded as `List String` of path components, the
  root path "." being the empty list (paths reaching the core are already
  normalized, see section 3 of the design document);
* the AES block cipher, SHA-256 and the GCM tag computation are explicit
  function parameters of the development: the statements proved here depend
  only on their determinism and on the byte-level framing that the source
  builds around them, never on concrete cipher values;
* stateful methods of GrainFS are functions of an explicit state; every
  operation returns its mutated state next to its `Except` result, because
  in the source a failing operation still leaves its receiver mutations in
  place;
* the per-directory filemap store (`loadFilemap` / `saveFilemap` and the
  cache in `FilemapManager`, which the source keeps consistent on every
  write) is modelled as a single authoritative map from directory path to
  decrypted filemap.
-/

namespace GrainVerify

/-- Error kinds, following section 7 of the design document.  `eofE` stands
for Go's `io.EOF` sentinel, `closedF` for `os.ErrClosed`, `fuelOut` marks
exhaustion of the fuel that makes the collision loop structurally
terminating (unreachable with the fuel the callers supply). -/
inductive GErr where
  | notFound
  | wrongMode
  | closedF
  | invalid
  | authFailed
  | tooLong
  | unsupported
  | corrupt
  | eofE
  | fuelOut
  deriving DecidableEq, Repr

instance exceptDecEq {ε α : Type} [DecidableEq ε] [DecidableEq α] :
    DecidableEq (Except ε α) := fun x y =>
  match x, y with
  | .ok a, .ok b =>
      if h : a = b then .isTrue (by rw [h]) else .isFalse (by simp [h])
  | .error e, .error f =>
      if h : e = f then .isTrue (by rw [h]) else .isFalse (by simp [h])
  | .ok _, .error _ => .isFalse (by simp)
  | .error _, .ok _ => .isFalse (by simp)

/-- Association-list lookup, the embedding of Go map indexing. -/
def alookup {α β : Type} [DecidableEq α] : List (α × β) → α → Option β
  | [], _ => none
  | (a, b) :: rest, k => if a = k then some b else alookup rest k

/-- Association-list update, the embedding of Go map assignment. -/
def aset {α β : Type} [DecidableEq α] : List (α × β) → α → β → List (α × β)
  | [], k, v => [(k, v)]
  | (a, b) :: rest, k, v =>
      if a = k then (k, v) :: rest else (a, b) :: aset rest k v

/-- Association-list key removal, the embedding of Go `delete`. -/
def aerase {α β : Type} [DecidableEq α] (l : List (α × β)) (k : α) :
    List (α × β) :=
  l.filter (fun kv => decide (kv.1 ≠ k))

theorem alookup_aset_self {α β : Type} [DecidableEq α]
    (l : List (α × β)) (k : α) (v : β) : alookup (aset l k v) k = some v := by
  induction l with
  | nil => simp [aset, alookup]
  | cons hd tl ih =>
    by_cases h : hd.1 = k
    · simp [aset, h, alookup]
    · simp [aset, h, alookup, ih]

theorem alookup_aset_ne {α β : Type} [DecidableEq α]
    (l : List (α × β)) (k k' : α) (v : β) (h : k ≠ k') :
    alookup (aset l k v) k' = alookup l k' := by
  induction l with
  | nil => simp [aset, alookup, h]
  | cons hd tl ih =>
    by_cases hh : hd.1 = k
    · simp [aset, hh, alookup, h]
    · simp [aset, hh, alookup, ih]

theorem alookup_mem {α β : Type} [DecidableEq α]
    (l : List (α × β)) (k : α) (v : β) (h : alookup l k = some v) :
    (k, v) ∈ l := by
  induction l with
  | nil => simp [alookup] at h
  | cons hd tl ih =>
    obtain ⟨a, b⟩ := hd
    by_cases hh : a = k
    · simp [alookup, hh] at h
      subst hh
      subst h
      exact List.mem_cons_self _ _
    · simp [alookup, hh] at h
      exact List.mem_cons_of_mem _ (ih h)

/-! ## Byte-level helpers -/

/-- Big-endian byte-sequence value, used to step the CTR counter block. -/
def bytesToNat : List Nat → Nat :=
  List.foldl (fun acc b => acc * 256 + b % 256) 0

/-- Big-endian encoding of `n` in `w` bytes. -/
def natToBytesBE : Nat → Nat → List Nat
  | 0, _ => []
  | w + 1, n => natToBytesBE w (n / 256) ++ [n % 256]

/-- Left-truncating, zero-right-padding normalization to `n` bytes. -/
def padTo (n : Nat) (l : List Nat) : List Nat :=
  (l ++ List.replicate n 0).take n

theorem padTo_length (n : Nat) (l : List Nat) : (padTo n l).length = n := by
  simp [padTo]

/-! ## Constants from the source (crypto.go constant block and config.go) -/

def NonceSize : Nat := 12
def TagSize : Nat := 16
def HMACSize : Nat := 32
def MaxFilenameLen : Nat := 200
def SaltSize : Nat := 32
def KeySize : Nat := 32
def FilenameKeySize : Nat := 32
def DefaultIterations : Nat := 100000
def ConfigVersion : String := "1.0.0"
def GrainFSDir : String := ".grainfs"

/-! ## URL-safe base64 with padding (encoding/base64 URLEncoding) -/

/-- ASCII codes of the URL-safe base64 alphabet. -/
def b64Alphabet : List Nat :=
  (List.range 26).map (fun i => i + 65) ++ (List.range 26).map (fun i => i + 97)
    ++ (List.range 10).map (fun i => i + 48) ++ [45, 95]

def b64Char (n : Nat) : Nat := b64Alphabet.getD (n % 64) 65

/-- URL-safe base64 of a byte string, with trailing padding characters
(ASCII 61) exactly as `base64.URLEncoding.EncodeToString` produces. -/
def base64UrlEncode : List Nat → List Nat
  | [] => []
  | [a] => [b64Char (a / 4), b64Char (a % 4 * 16), 61, 61]
  | [a, b] =>
      [b64Char (a / 4), b64Char (a % 4 * 16 + b / 16), b64Char (b % 16 * 4), 61]
  | a :: b :: c :: rest =>
      b64Char (a / 4) :: b64Char (a % 4 * 16 + b / 16) ::
        b64Char (b % 16 * 4 + c / 64) :: b64Char (c % 64) :: base64UrlEncode rest

theorem base64UrlEncode_length (l : List Nat) :
    (base64UrlEncode l).length = 4 * ((l.length + 2) / 3) := by
  match l with
  | [] => rfl
  | [a] => simp [base64UrlEncode]
  | [a, b] => simp [base64UrlEncode]
  | a :: b :: c :: rest =>
    have ih := base64UrlEncode_length rest
    simp only [base64UrlEncode, List.length_cons, ih]
    omega

/-! ## HMAC-SHA-256 and AES-CTR, parameterized by the compression primitives -/

/-- HMAC with a 64-byte block, as crypto/hmac instantiates it over SHA-256. -/
def hmacSha (sha : List Nat → List Nat) (key msg : List Nat) : List Nat :=
  let k0 := if 64 < key.length then sha key else key
  let k1 := k0 ++ List.replicate (64 - k0.length) 0
  let ipad := k1.map (fun b => Nat.xor b 54)
  let opad := k1.map (fun b => Nat.xor b 92)
  sha (opad ++ sha (ipad ++ msg))

/-- The CTR counter block `j` steps after `iv` (128-bit wraparound). -/
def ctrBlockAt (iv : List Nat) (j : Nat) : List Nat :=
  natToBytesBE 16 ((bytesToNat iv + j) % 2 ^ 128)

/-- The first `n` bytes of the AES-CTR keystream for `(key, iv)`; by
construction its length is `n`, as cipher.NewCTR guarantees. -/
def ctrKeystream (aes : List Nat → List Nat → List Nat) (key iv : List Nat)
    (n : Nat) : List Nat :=
  (List.range n).map (fun i => (aes key (ctrBlockAt iv (i / 16))).getD (i % 16) 0)

theorem ctrKeystream_length (aes : List Nat → List Nat → List Nat)
    (key iv : List Nat) (n : Nat) : (ctrKeystream aes key iv n).length = n := by
  simp [ctrKeystream]

theorem zipWith_xor_cancel (pt ks : List Nat) (h : pt.length ≤ ks.length) :
    List.zipWith Nat.xor (List.zipWith Nat.xor pt ks) ks = pt := by
  induction pt generalizing ks with
  | nil => simp
  | cons a rest ih =>
    match ks with
    | [] => simp at h
    | b :: krest =>
      simp only [List.zipWith_cons_cons]
      have : Nat.xor (Nat.xor a b) b = a := by
        show a ^^^ b ^^^ b = a
        rw [Nat.xor_assoc, Nat.xor_self, Nat.xor_zero]
      rw [this, ih krest (by simpa using h)]

/-! ## Deterministic filename obfuscation (crypto-level, crypto.go) -/

/-- Mirrors the package-level `obfuscateFilename`: deterministic IV from
SHA-256(filenameKey plus cleartext), AES-CTR encryption, HMAC-SHA-256 tag,
URL-safe base64 encoding, and the 200-byte encoded-length limit. -/
def obfuscateFilename (sha : List Nat → List Nat)
    (aes : List Nat → List Nat → List Nat) (filenameKey name : List Nat) :
    Except GErr (List Nat) :=
  if name = [] then .error .invalid
  else
    let iv := (sha (filenameKey ++ name)).take 16
    let ct := List.zipWith Nat.xor name (ctrKeystream aes filenameKey iv name.length)
    let mac := hmacSha sha filenameKey (iv ++ ct)
    let encoded := base64UrlEncode (iv ++ ct ++ mac)
    if MaxFilenameLen < encoded.length then .error .tooLong else .ok encoded

/-! ## AES-256-GCM content envelope (crypto.go)

GCM is CTR encryption plus an authentication tag; the embedding keeps the
framing exact (ciphertext of the plaintext length followed by a 16-byte tag)
and treats the block cipher `aes` and the tag computation `tagF` as
parameters.  The counter blocks extend the 12-byte nonce by a 32-bit counter
starting at 2, as crypto/cipher's GCM does for 96-bit nonces. -/

/-- The first `n` bytes of the GCM payload keystream for `(key, nonce)`. -/
def gcmKeystream (aes : List Nat → List Nat → List Nat) (key nonce : List Nat)
    (n : Nat) : List Nat :=
  (List.range n).map (fun i =>
    (aes key (nonce ++ natToBytesBE 4 ((2 + i / 16) % 2 ^ 32))).getD (i % 16) 0)

theorem gcmKeystream_length (aes : List Nat → List Nat → List Nat)
    (key nonce : List Nat) (n : Nat) : (gcmKeystream aes key nonce n).length = n := by
  simp [gcmKeystream]

/-- The 16-byte GCM authentication tag (`tagF` normalized to `TagSize`). -/
def gcmTag (tagF : List Nat → List Nat → List Nat → List Nat)
    (key nonce ct : List Nat) : List Nat :=
  padTo TagSize (tagF key nonce ct)

/-- `gcm.Seal(nil, nonce, pt, nil)`: ciphertext followed by the tag. -/
def gcmSeal (aes : List Nat → List Nat → List Nat)
    (tagF : List Nat → List Nat → List Nat → List Nat)
    (key nonce pt : List Nat) : List Nat :=
  let ct := List.zipWith Nat.xor pt (gcmKeystream aes key nonce pt.length)
  ct ++ gcmTag tagF key nonce ct

/-- `gcm.Open(nil, nonce, data, nil)`: split off the trailing tag, verify
it, and decrypt; verification failure is `authFailed`. -/
def gcmOpen (aes : List Nat → List Nat → List Nat)
    (tagF : List Nat → List Nat → List Nat → List Nat)
    (key nonce data : List Nat) : Except GErr (List Nat) :=
  if data.length < TagSize then .error .authFailed
  else
    let ct := data.take (data.length - TagSize)
    let tag := data.drop (data.length - TagSize)
    if tag = gcmTag tagF key nonce ct then
      .ok (List.zipWith Nat.xor ct (gcmKeystream aes key nonce ct.length))
    else .error .authFailed

theorem gcmOpen_append (aes : List Nat → List Nat → List Nat)
    (tagF : List Nat → List Nat → List Nat → List Nat) (key nonce ct : List Nat) :
    gcmOpen aes tagF key nonce (ct ++ gcmTag tagF key nonce ct) =
      .ok (List.zipWith Nat.xor ct (gcmKeystream aes key nonce ct.length)) := by
  have htag : (gcmTag tagF key nonce ct).length = TagSize := padTo_length _ _
  simp only [gcmOpen, List.length_append, htag]
  rw [if_neg (by omega)]
  have h1 : ct.length + TagSize - TagSize = ct.length := by omega
  rw [h1, List.take_left, List.drop_left, if_pos rfl]

theorem gcmOpen_gcmSeal (aes : List Nat → List Nat → List Nat)
    (tagF : List Nat → List Nat → List Nat → List Nat) (key nonce pt : List Nat) :
    gcmOpen aes tagF key nonce (gcmSeal aes tagF key nonce pt) = .ok pt := by
  unfold gcmSeal
  rw [gcmOpen_append]
  have hctlen :
      (List.zipWith Nat.xor pt (gcmKeystream aes key nonce pt.length)).length
        = pt.length := by
    simp [gcmKeystream_length]
  rw [hctlen]
  exact congrArg Except.ok
    (zipWith_xor_cancel pt _ (by simp [gcmKeystream_length]))

/-- `encryptData(key, pt)` with the random nonce made explicit: the stored
envelope is the nonce followed by the sealed blob. -/
def encryptData (aes : List Nat → List Nat → List Nat)
    (tagF : List Nat → List Nat → List Nat → List Nat)
    (key nonce pt : List Nat) : List Nat :=
  nonce ++ gcmSeal aes tagF key nonce pt

/-- `decryptData(key, data)`: reject envelopes shorter than nonce plus tag,
then split the nonce off and open the remainder. -/
def decryptData (aes : List Nat → List Nat → List Nat)
    (tagF : List Nat → List Nat → List Nat → List Nat)
    (key data : List Nat) : Except GErr (List Nat) :=
  if data.length < NonceSize + TagSize then .error .corrupt
  else gcmOpen aes tagF key (data.take NonceSize) (data.drop NonceSize)

theorem decryptData_encryptData (aes : List Nat → List Nat → List Nat)
    (tagF : List Nat → List Nat → List Nat → List Nat) (key nonce pt : List Nat)
    (hn : nonce.length = NonceSize) :
    decryptData aes tagF key (encryptData aes tagF key nonce pt) = .ok pt := by
  have hslen : (gcmSeal aes tagF key nonce pt).length = pt.length + TagSize := by
    simp [gcmSeal, gcmKeystream_length, padTo_length, gcmTag]
  simp only [decryptData, encryptData, List.length_append, hn]
  rw [if_neg (by omega), ← hn, List.take_left, List.drop_left]
  exact gcmOpen_gcmSeal aes tagF key nonce pt

/-! ## Key derivation and volume configuration (config.go) -/

/-- The persisted volume configuration from `.grainfs/config.json`. -/
structure Config where
  salt : List Nat
  iterations : Nat
  version : String
  deriving DecidableEq, Repr

/-- Mirrors `deriveKeys`: the master key is PBKDF2 of the password under the
stored salt, and the filename key is PBKDF2 of the master key under the salt
extended with the literal bytes of "filename".  `kdf password salt iter len`
stands for `pbkdf2.Key` with SHA-256. -/
def deriveKeys (kdf : List Nat → List Nat → Nat → Nat → List Nat)
    (password salt : List Nat) (iterations : Nat) : List Nat × List Nat :=
  let masterKey := kdf password salt iterations KeySize
  let filenameSalt := salt ++ [102, 105, 108, 101, 110, 97, 109, 101]
  let filenameKey := kdf masterKey filenameSalt iterations FilenameKeySize
  (masterKey, filenameKey)

/-- Mirrors `loadConfig`: a persisted config is validated (salt size and a
positive iteration count) and returned unchanged; an absent config is
created from fresh random salt (`freshSalt`) with the default iteration
count. -/
def loadConfig (stored : Option Config) (freshSalt : List Nat) :
    Except GErr Config :=
  match stored with
  | some c =>
      if c.salt.length = SaltSize ∧ 0 < c.iterations then .ok c
      else .error .invalid
  | none =>
      .ok { salt := freshSalt, iterations := DefaultIterations,
            version := ConfigVersion }

/-- Mirrors the key-establishing part of `New`: reject an empty password,
load or create the config, then derive both keys from the password and the
persisted `(salt, iterations)`. -/
def newKeys (kdf : List Nat → List Nat → Nat → Nat → List Nat)
    (password : List Nat) (stored : Option Config) (freshSalt : List Nat) :
    Except GErr (List Nat × List Nat) :=
  if password = [] then .error .invalid
  else
    (loadConfig stored freshSalt).map (fun c =>
      deriveKeys kdf password c.salt c.iterations)

/-! ## Paths, the backend, and the GrainFS state

A Go path string is embedded as its list of components; `filepath.Dir` is
`List.dropLast`, `filepath.Base` is the last component, `filepath.Join` is
list append, and the root "." is the empty list. -/

abbrev Path := List String

/-- A per-directory filename map: obfuscated basename to cleartext name. -/
abbrev FilenameMap := List (String × String)

/-- `p` is a strict ancestor of `q` in the component tree. -/
def leadsTo : Path → Path → Bool
  | [], [] => false
  | [], _ :: _ => true
  | _ :: _, [] => false
  | a :: as, b :: bs => a = b && leadsTo as bs

/-- The billy backend, reduced to what the core consumes: a flat store of
files (full component path to raw bytes) plus explicitly created
directories. -/
structure Backend where
  files : List (Path × List Nat)
  dirs : List Path
  deriving DecidableEq, Repr

def setFile (b : Backend) (p : Path) (d : List Nat) : Backend :=
  { b with files := aset b.files p d }

def removeFile (b : Backend) (p : Path) : Backend :=
  { b with files := aerase b.files p }

def addDir (b : Backend) (p : Path) : Backend :=
  if p ∈ b.dirs then b else { b with dirs := p :: b.dirs }

/-- Backend `Stat` existence: the root, a stored file or directory, or an
ancestor of one (directories implied by deeper entries). -/
def bStat (b : Backend) (p : Path) : Bool :=
  p = [] || b.files.any (fun f => f.1 = p || leadsTo p f.1)
    || b.dirs.any (fun d => d = p || leadsTo p d)

/-- Backend `Rename`: move the stored bytes to the new path. -/
def bRename (b : Backend) (oldp newp : Path) : Except GErr Backend :=
  match alookup b.files oldp with
  | none => .error .notFound
  | some d => .ok (setFile (removeFile b oldp) newp d)

/-- Backend `OpenFile`: with `O_CREATE` the file is created (or truncated
when `O_TRUNC` is set); without it the file must exist. -/
def bOpenFile (b : Backend) (p : Path) (flag : Nat) : Except GErr Backend :=
  if flag &&& 64 ≠ 0 then
    if (alookup b.files p).isNone || flag &&& 512 ≠ 0 then .ok (setFile b p [])
    else .ok b
  else if (alookup b.files p).isSome then .ok b else .error .notFound

/-- The names directly under `p`: first components of stored paths strictly
below it, deduplicated — the backend `ReadDir` listing. -/
def childNames (b : Backend) (p : Path) : List String :=
  ((b.files.map Prod.fst ++ b.dirs).filterMap (fun q =>
    if leadsTo p q then (q.drop p.length).head? else none)).dedup

/-- The GrainFS volume state: the wrapped backend and the per-directory
filemap store (the decrypted view of every `.grainfs/filemap.json` sidecar,
which the source keeps in sync with its in-memory cache on every write). -/
structure FS where
  backend : Backend
  filemaps : List (Path × FilenameMap)
  deriving DecidableEq, Repr

def fsEmpty : FS := { backend := { files := [], dirs := [] }, filemaps := [] }

/-- Mirrors `loadFilemap`: an absent sidecar denotes the empty map. -/
def loadFilemap (st : FS) (dir : Path) : FilenameMap :=
  (alookup st.filemaps dir).getD []

/-- Structural embedding of `strings.HasPrefix`: `listStarts p.data s.data`
is true iff the character list `p` starts the character list `s`. -/
def listStarts : List Char → List Char → Bool
  | [], _ => true
  | _ :: _, [] => false
  | a :: as, b :: bs => a == b && listStarts as bs

def strStarts (p s : String) : Bool :=
  listStarts p.data s.data

/-- The reserved-name test from `obfuscateFilename` / `deobfuscateFilename`:
the sidecar directory itself, or anything inside its subtree, passes
through verbatim. -/
def sidecarName (s : String) : Bool :=
  s = GrainFSDir || strStarts (GrainFSDir ++ "/") s

/-- The collision loop of `GrainFS.obfuscateFilename`: starting from the
deterministic token, retry with literal suffixes `.1`, `.2`, ... until the
candidate is free (insert it) or already bound to the same cleartext name
(reuse it).  Returns the final token and whether a filemap insert is still
needed; the fuel the caller passes (one more than the map size) always
suffices because the candidates are pairwise distinct. -/
def collide (m : FilenameMap) (base filename : String) :
    String → Nat → Nat → Option (String × Bool)
  | _, 0, _ => none
  | cand, fuel + 1, counter =>
      match alookup m cand with
      | none => some (cand, true)
      | some orig =>
          if orig = filename then some (cand, false)
          else collide m base filename (base ++ "." ++ toString counter) fuel
            (counter + 1)

theorem natLex3 {a1 a2 b1 b2 c1 c2 : Nat}
    (h : a1 < a2 ∨ a1 = a2 ∧ (b1 < b2 ∨ b1 = b2 ∧ c1 < c2)) :
    Prod.Lex (· < ·) (Prod.Lex (· < ·) (· < ·)) (a1, b1, c1) (a2, b2, c2) := by
  rcases h with h | ⟨rfl, h | ⟨rfl, h⟩⟩
  · exact Prod.Lex.left _ _ h
  · exact Prod.Lex.right _ (Prod.Lex.left _ _ h)
  · exact Prod.Lex.right _ (Prod.Lex.right _ h)

mutual

/-- Mirrors `GrainFS.obfuscateFilename(dir, filename)`: reject the empty
name, pass reserved sidecar names through, compute the deterministic token
(`tok` is the crypto-level `obfuscateFilename` under the filename key),
resolve collisions against the directory's filemap, and persist a new
mapping when one was allocated. -/
def obfuscateFilenameM (tok : String → Except GErr String) (st : FS)
    (dir : Path) (filename : String) : Except GErr String × FS :=
  if filename = "" then (.error .invalid, st)
  else if sidecarName filename then (.ok filename, st)
  else
    match tok filename with
    | .error e => (.error e, st)
    | .ok t =>
        let m := loadFilemap st dir
        match collide m t filename t (m.length + 1) 1 with
        | none => (.error .fuelOut, st)
        | some (tf, false) => (.ok tf, st)
        | some (tf, true) =>
            match updateFilemap tok st dir filename tf with
            | (.error e, st2) => (.error e, st2)
            | (.ok _, st2) => (.ok tf, st2)
termination_by (dir.length, 1, 0)
decreasing_by
  all_goals simp_wf
  all_goals exact natLex3 (by first
    | omega
    | (simp only [List.length_append, List.length_cons, List.length_nil]; omega))


/-- Mirrors `updateFilemap`: ensure the sidecar directory exists, insert the
mapping into the directory's map, and save it. -/
def updateFilemap (tok : String → Except GErr String) (st : FS) (dir : Path)
    (original obf : String) : Except GErr Unit × FS :=
  match ensureGrainFSDir tok st dir with
  | (.error e, st1) => (.error e, st1)
  | (.ok _, st1) =>
      let m2 := aset (loadFilemap st1 dir) obf original
      saveFilemap tok st1 dir m2
termination_by (dir.length, 0, dir.length + 3)
decreasing_by
  all_goals simp_wf
  all_goals exact natLex3 (by first
    | omega
    | (simp only [List.length_append, List.length_cons, List.length_nil]; omega))


/-- Mirrors `saveFilemap`: resolve the obfuscated directory (a stateful
translation), then store the map for `dir`; the encrypted sidecar bytes and
the cache entry are both represented by the authoritative `filemaps`
entry. -/
def saveFilemap (tok : String → Except GErr String) (st : FS) (dir : Path)
    (m : FilenameMap) : Except GErr Unit × FS :=
  match getObfuscatedPath tok st dir with
  | (.error e, st1) => (.error e, st1)
  | (.ok _, st1) => (.ok (), { st1 with filemaps := aset st1.filemaps dir m })
termination_by (dir.length, 0, dir.length + 2)
decreasing_by
  all_goals simp_wf
  all_goals exact natLex3 (by first
    | omega
    | (simp only [List.length_append, List.length_cons, List.length_nil]; omega))


/-- Mirrors `ensureGrainFSDir`: create `obfuscated(dir)/.grainfs` on the
backend. -/
def ensureGrainFSDir (tok : String → Except GErr String) (st : FS)
    (dir : Path) : Except GErr Unit × FS :=
  match getObfuscatedPath tok st dir with
  | (.error e, st1) => (.error e, st1)
  | (.ok obfDir, st1) =>
      (.ok (), { st1 with backend := addDir st1.backend (obfDir ++ [GrainFSDir]) })
termination_by (dir.length, 0, dir.length + 2)
decreasing_by
  all_goals simp_wf
  all_goals exact natLex3 (by first
    | omega
    | (simp only [List.length_append, List.length_cons, List.length_nil]; omega))


/-- Mirrors `getObfuscatedPath`: translate a cleartext path one component at
a time, obfuscating each component against the directory accumulated so far
(note the source accumulates the obfuscated directory as the filemap key for
the next component). -/
def getObfuscatedPath (tok : String → Except GErr String) (st : FS)
    (p : Path) : Except GErr Path × FS :=
  getObfuscatedPathAux tok st [] p
termination_by (p.length, 0, p.length + 1)
decreasing_by
  all_goals simp_wf
  all_goals exact natLex3 (by first
    | omega
    | (simp only [List.length_append, List.length_cons, List.length_nil]; omega))


def getObfuscatedPathAux (tok : String → Except GErr String) (st : FS)
    (cur : Path) (parts : List String) : Except GErr Path × FS :=
  match parts with
  | [] => (.ok cur, st)
  | part :: rest =>
      if part = "" || part = "." then getObfuscatedPathAux tok st cur rest
      else
        match obfuscateFilenameM tok st cur part with
        | (.error e, st1) => (.error e, st1)
        | (.ok op, st1) => getObfuscatedPathAux tok st1 (cur ++ [op]) rest
termination_by (cur.length + parts.length, 0, parts.length)
decreasing_by
  all_goals simp_wf
  all_goals exact natLex3 (by first
    | omega
    | (simp only [List.length_append, List.length_cons, List.length_nil]; omega))


end

/-- Mirrors `GrainFS.deobfuscateFilename(dir, obfuscated)`: reject the empty
token, pass reserved sidecar names through, otherwise look the token up in
the directory's filemap.  It only reads the filemap, so it is a pure
function of the state. -/
def deobfuscateFilenameM (st : FS) (dir : Path) (obf : String) :
    Except GErr String :=
  if obf = "" then .error .invalid
  else if sidecarName obf then .ok obf
  else
    match alookup (loadFilemap st dir) obf with
    | some orig => .ok orig
    | none => .error .notFound

/-- Mirrors `removeFromFilemap`: delete the token from the directory's map
(an absent sidecar already denotes the empty map) and save. -/
def removeFromFilemap (tok : String → Except GErr String) (st : FS)
    (dir : Path) (obf : String) : Except GErr Unit × FS :=
  saveFilemap tok st dir (aerase (loadFilemap st dir) obf)

/-- The stepwise loop of `mkdirAllInternal`: for every cleartext prefix,
translate it, create the backend directory, and ensure its sidecar
directory exists. -/
def mkdirAllAux (tok : String → Except GErr String) (st : FS) (cur : Path) :
    List String → Except GErr Unit × FS
  | [] => (.ok (), st)
  | part :: rest =>
      if part = "" || part = "." then mkdirAllAux tok st cur rest
      else
        let cur2 := cur ++ [part]
        match getObfuscatedPath tok st cur2 with
        | (.error e, st1) => (.error e, st1)
        | (.ok op, st1) =>
            let st2 := { st1 with backend := addDir st1.backend op }
            match ensureGrainFSDir tok st2 cur2 with
            | (.error e, st3) => (.error e, st3)
            | (.ok _, st3) => mkdirAllAux tok st3 cur2 rest

/-- Mirrors `mkdirAllInternal`. -/
def mkdirAllM (tok : String → Except GErr String) (st : FS) (p : Path) :
    Except GErr Unit × FS :=
  if p = [] then (.ok (), st) else mkdirAllAux tok st [] p

/-- Go os package flag bits used by the source. -/
def oRDONLY : Nat := 0
def oWRONLY : Nat := 1
def oRDWR : Nat := 2
def oCREATE : Nat := 64
def oTRUNC : Nat := 512

/-- The per-handle envelope state of `EncryptedFile`: the backend path it
writes to, the cleartext name, the mode flag, and the transient state of
the encrypting writer (nonce and plaintext buffer) and of the decrypting
reader (decrypted buffer and cursor). -/
structure EncryptedFile where
  obfuscated : Path
  filename : Path
  flag : Nat
  isWriteMode : Bool
  closed : Bool := false
  writerStarted : Bool := false
  wNonce : List Nat := []
  wBuffer : List Nat := []
  readInitialized : Bool := false
  drDecrypted : List Nat := []
  drPos : Nat := 0
  deriving DecidableEq, Repr

/-- Mirrors `openFileInternal`: with `O_CREATE`, make the parent directories,
obfuscate the basename against the cleartext parent (updating its filemap),
and open `obfuscated(dir)/token`; without it, translate the whole path.
The handle is in write mode exactly when `O_WRONLY` or `O_RDWR` is set. -/
def translateForOpen (tok : String → Except GErr String) (st : FS)
    (name : Path) (flag : Nat) : Except GErr Path × FS :=
  if flag &&& oCREATE ≠ 0 then
    let dir := name.dropLast
    let base := name.getLastD "."
    let afterMkdir : Except GErr Unit × FS :=
      if dir = [] then (.ok (), st) else mkdirAllM tok st dir
    match afterMkdir with
    | (.error e, st1) => (.error e, st1)
    | (.ok _, st1) =>
        match getObfuscatedPath tok st1 dir with
        | (.error e, st2) => (.error e, st2)
        | (.ok obfDir, st2) =>
            match obfuscateFilenameM tok st2 dir base with
            | (.error e, st3) => (.error e, st3)
            | (.ok obfBase, st3) => (.ok (obfDir ++ [obfBase]), st3)
  else getObfuscatedPath tok st name

def openFileInternalM (tok : String → Except GErr String) (st : FS)
    (name : Path) (flag : Nat) : Except GErr EncryptedFile × FS :=
  if name = [] then (.error .invalid, st)
  else
    match translateForOpen tok st name flag with
    | (.error e, st1) => (.error e, st1)
    | (.ok path, st1) =>
        match bOpenFile st1.backend path flag with
        | .error e => (.error e, st1)
        | .ok b2 =>
            (.ok { obfuscated := path, filename := name, flag := flag,
                   isWriteMode := flag &&& oWRONLY ≠ 0 || flag &&& oRDWR ≠ 0 },
             { st1 with backend := b2 })

/-- Mirrors `Create`: open with `O_RDWR`, `O_CREATE` and `O_TRUNC`. -/
def createM (tok : String → Except GErr String) (st : FS) (name : Path) :
    Except GErr EncryptedFile × FS :=
  openFileInternalM tok st name (oRDWR ||| (oCREATE ||| oTRUNC))

/-- Mirrors `Open`: open read-only. -/
def openM (tok : String → Except GErr String) (st : FS) (name : Path) :
    Except GErr EncryptedFile × FS :=
  openFileInternalM tok st name oRDONLY

/-- Mirrors `Stat`: translate the path (a stateful step that may allocate
filemap entries), stat the backend, and report the cleartext basename. -/
def statM (tok : String → Except GErr String) (st : FS) (name : Path) :
    Except GErr String × FS :=
  match getObfuscatedPath tok st name with
  | (.error e, st1) => (.error e, st1)
  | (.ok p, st1) =>
      if bStat st1.backend p then (.ok (name.getLastD "."), st1)
      else (.error .notFound, st1)

/-- Mirrors `Rename`: translate the old path, allocate the new basename's
token in the new parent's filemap, rename on the backend, then remove the
old token from the old parent's filemap — attempting to rename back if that
final update fails. -/
def renameM (tok : String → Except GErr String) (st : FS) (oldp newp : Path) :
    Except GErr Unit × FS :=
  if oldp = [] || newp = [] then (.error .invalid, st)
  else
    match getObfuscatedPath tok st oldp with
    | (.error e, st1) => (.error e, st1)
    | (.ok oldObf, st1) =>
        let newDir := newp.dropLast
        let newBase := newp.getLastD "."
        match obfuscateFilenameM tok st1 newDir newBase with
        | (.error e, st2) => (.error e, st2)
        | (.ok newObfBase, st2) =>
            match getObfuscatedPath tok st2 newDir with
            | (.error e, st3) => (.error e, st3)
            | (.ok newObfDir, st3) =>
                let newObfPath := newObfDir ++ [newObfBase]
                match bRename st3.backend oldObf newObfPath with
                | .error e => (.error e, st3)
                | .ok b2 =>
                    let st4 := { st3 with backend := b2 }
                    let oldDir := oldp.dropLast
                    let oldObfBase := oldObf.getLastD "."
                    match removeFromFilemap tok st4 oldDir oldObfBase with
                    | (.error e, st5) =>
                        let b3 :=
                          match bRename st5.backend newObfPath oldObf with
                          | .ok b3 => b3
                          | .error _ => st5.backend
                        (.error e, { st5 with backend := b3 })
                    | (.ok _, st5) => (.ok (), st5)

/-- Mirrors `ReadDir`: translate the path, list the backend directory, skip
the sidecar entry, deobfuscate every other entry through the directory's
filemap, and silently drop entries whose deobfuscation fails. -/
def readDirM (tok : String → Except GErr String) (st : FS) (p : Path) :
    Except GErr (List String) × FS :=
  match getObfuscatedPath tok st p with
  | (.error e, st1) => (.error e, st1)
  | (.ok op, st1) =>
      if bStat st1.backend op then
        let out := (childNames st1.backend op).filterMap (fun nm =>
          if nm = GrainFSDir then none
          else
            match deobfuscateFilenameM st1 p nm with
            | .ok orig => some orig
            | .error _ => none)
        (.ok out, st1)
      else (.error .notFound, st1)

/-! ## EncryptedFile operations (file.go and the streaming adapters) -/

/-- `DecryptingReader.initialize`: read the 12-byte nonce (failing when the
stored envelope is shorter), read the rest, and open it with GCM. -/
def drInit (aes : List Nat → List Nat → List Nat)
    (tagF : List Nat → List Nat → List Nat → List Nat)
    (key content : List Nat) : Except GErr (List Nat) :=
  if content.length < NonceSize then .error .corrupt
  else gcmOpen aes tagF key (content.take NonceSize) (content.drop NonceSize)

/-- The initialization step shared by `Read` and `ReadAt`
(`initializeReader` plus the cursor reset): fetch the handle's backend
bytes, decrypt them fully, and start the cursor at zero. -/
def efInit (aes : List Nat → List Nat → List Nat)
    (tagF : List Nat → List Nat → List Nat → List Nat)
    (key : List Nat) (st : FS) (f : EncryptedFile) : Except GErr EncryptedFile :=
  if f.readInitialized then .ok f
  else
    match alookup st.backend.files f.obfuscated with
    | none => .error .notFound
    | some content =>
        match drInit aes tagF key content with
        | .error e => .error e
        | .ok dec =>
            .ok { f with readInitialized := true, drDecrypted := dec, drPos := 0 }

/-- Mirrors `EncryptedFile.Read`: closed handles fail, write-mode handles
fail with the wrong-mode error, the first call initializes the decrypting
reader, and data is then copied out of the decrypted buffer at the cursor,
with `eofE` once the buffer is exhausted.  `n` is the caller's buffer
size. -/
def efRead (aes : List Nat → List Nat → List Nat)
    (tagF : List Nat → List Nat → List Nat → List Nat)
    (key : List Nat) (n : Nat) (st : FS) (f : EncryptedFile) :
    Except GErr (List Nat) × FS × EncryptedFile :=
  if f.closed then (.error .closedF, st, f)
  else if f.isWriteMode then (.error .wrongMode, st, f)
  else
    match efInit aes tagF key st f with
    | .error e => (.error e, st, f)
    | .ok f2 =>
        let available := f2.drDecrypted.length - f2.drPos
        if available = 0 then (.error .eofE, st, f2)
        else
          let k := min n available
          let chunk := (f2.drDecrypted.drop f2.drPos).take k
          (.ok chunk, st, { f2 with drPos := f2.drPos + k })

/-- Mirrors `EncryptedFile.ReadAt`: same closed and mode checks, same lazy
initialization, then a bounds-checked copy out of the decrypted buffer that
leaves the sequential cursor untouched. -/
def efReadAt (aes : List Nat → List Nat → List Nat)
    (tagF : List Nat → List Nat → List Nat → List Nat)
    (key : List Nat) (n : Nat) (off : Int) (st : FS) (f : EncryptedFile) :
    Except GErr (List Nat) × FS × EncryptedFile :=
  if f.closed then (.error .closedF, st, f)
  else if f.isWriteMode then (.error .wrongMode, st, f)
  else
    match efInit aes tagF key st f with
    | .error e => (.error e, st, f)
    | .ok f2 =>
        if off < 0 then (.error .invalid, st, f2)
        else
          let offN := off.toNat
          if f2.drDecrypted.length ≤ offN then (.error .eofE, st, f2)
          else
            let available := f2.drDecrypted.length - offN
            let k := min n available
            (.ok ((f2.drDecrypted.drop offN).take k), st, f2)

/-- Mirrors `EncryptedFile.Write`: closed handles fail, read-mode handles
fail with the wrong-mode error; the first write constructs the encrypting
writer, which immediately writes the fresh random `nonce` to the backend;
every write then buffers its plaintext. -/
def efWrite (key nonce : List Nat) (st : FS) (f : EncryptedFile)
    (p : List Nat) : Except GErr Nat × FS × EncryptedFile :=
  if f.closed then (.error .closedF, st, f)
  else if f.isWriteMode = false then (.error .wrongMode, st, f)
  else if f.writerStarted = false then
    match alookup st.backend.files f.obfuscated with
    | none => (.error .notFound, st, f)
    | some content =>
        (.ok p.length,
         { st with backend := setFile st.backend f.obfuscated (content ++ nonce) },
         { f with writerStarted := true, wNonce := nonce, wBuffer := f.wBuffer ++ p })
  else (.ok p.length, st, { f with wBuffer := f.wBuffer ++ p })

/-- Mirrors `EncryptedFile.Close`: idempotent; when the encrypting writer
exists, its `Close` seals the buffered plaintext (empty or not) under the
nonce written at construction and appends the blob to the backend file.  A
handle that never wrote leaves the backend file untouched. -/
def efClose (aes : List Nat → List Nat → List Nat)
    (tagF : List Nat → List Nat → List Nat → List Nat)
    (key : List Nat) (st : FS) (f : EncryptedFile) :
    Except GErr Unit × FS × EncryptedFile :=
  if f.closed then (.ok (), st, f)
  else if f.writerStarted then
    match alookup st.backend.files f.obfuscated with
    | none => (.error .notFound, st, { f with closed := true })
    | some content =>
        let sealed := content ++ gcmSeal aes tagF key f.wNonce f.wBuffer
        (.ok (),
         { st with backend := setFile st.backend f.obfuscated sealed },
         { f with closed := true })
  else (.ok (), st, { f with closed := true })

/-- `io.ReadAll` against the envelope: repeatedly read 512-byte chunks
until `eofE`, accumulating the output.  The fuel only bounds the loop for
structural recursion; `efReadAll` supplies enough for any envelope. -/
def efReadAllAux (aes : List Nat → List Nat → List Nat)
    (tagF : List Nat → List Nat → List Nat → List Nat) (key : List Nat) :
    Nat → FS → EncryptedFile → List Nat →
      Except GErr (List Nat) × FS × EncryptedFile
  | 0, st, f, _ => (.error .fuelOut, st, f)
  | fuel + 1, st, f, acc =>
      match efRead aes tagF key 512 st f with
      | (.error .eofE, st1, f1) => (.ok acc, st1, f1)
      | (.error e, st1, f1) => (.error e, st1, f1)
      | (.ok chunk, st1, f1) => efReadAllAux aes tagF key fuel st1 f1 (acc ++ chunk)

def efReadAll (aes : List Nat → List Nat → List Nat)
    (tagF : List Nat → List Nat → List Nat → List Nat)
    (key : List Nat) (st : FS) (f : EncryptedFile) :
    Except GErr (List Nat) × FS × EncryptedFile :=
  efReadAllAux aes tagF key
    (((alookup st.backend.files f.obfuscated).getD []).length + 2) st f []

/-! ## Scenario programs

Straight-line compositions of the operations above, following the
end-to-end sequences of the testable-properties section.  `nonce` is the
random nonce the encrypting writer draws at construction. -/

/-- Create `name`, write `data`, close; then open `name` and read it all. -/
def writeReadScenario (aes : List Nat → List Nat → List Nat)
    (tagF : List Nat → List Nat → List Nat → List Nat)
    (tok : String → Except GErr String) (key nonce : List Nat) (st0 : FS)
    (name : String) (data : List Nat) : Except GErr (List Nat) :=
  match createM tok st0 [name] with
  | (.error e, _) => .error e
  | (.ok f1, st1) =>
      match efWrite key nonce st1 f1 data with
      | (.error e, _, _) => .error e
      | (.ok _, st2, f2) =>
          match efClose aes tagF key st2 f2 with
          | (.error e, _, _) => .error e
          | (.ok _, st3, _) =>
              match openM tok st3 [name] with
              | (.error e, _) => .error e
              | (.ok f4, st4) =>
                  match efReadAll aes tagF key st4 f4 with
                  | (.ok out, _, _) => .ok out
                  | (.error e, _, _) => .error e

/-- The rename scenario on a fresh volume: create `old.txt` with contents
`"X"` (byte 88), rename it to `new.txt`, then — in this order — stat
`old.txt`, open and read `new.txt`, and report the root filemap. -/
def renameScenario (aes : List Nat → List Nat → List Nat)
    (tagF : List Nat → List Nat → List Nat → List Nat)
    (tok : String → Except GErr String) (key nonce : List Nat) :
    Except GErr (Except GErr String × Except GErr (List Nat) × FilenameMap) :=
  match createM tok fsEmpty ["old.txt"] with
  | (.error e, _) => .error e
  | (.ok f1, st1) =>
      match efWrite key nonce st1 f1 [88] with
      | (.error e, _, _) => .error e
      | (.ok _, st2, f2) =>
          match efClose aes tagF key st2 f2 with
          | (.error e, _, _) => .error e
          | (.ok _, st3, _) =>
              match renameM tok st3 ["old.txt"] ["new.txt"] with
              | (.error e, _) => .error e
              | (.ok _, st4) =>
                  let statStep := statM tok st4 ["old.txt"]
                  let readStep :
                      Except GErr (List Nat) × FS :=
                    match openM tok statStep.2 ["new.txt"] with
                    | (.error e, st) => (.error e, st)
                    | (.ok f, st) =>
                        match efReadAll aes tagF key st f with
                        | (r, st6, _) => (r, st6)
                  .ok (statStep.1, readStep.1, loadFilemap readStep.2 [])

/-- Create `name`, write zero bytes, close; report the stored envelope. -/
def emptyWriteScenario (aes : List Nat → List Nat → List Nat)
    (tagF : List Nat → List Nat → List Nat → List Nat)
    (tok : String → Except GErr String) (key nonce : List Nat) (st0 : FS)
    (name : String) : Except GErr (List Nat) :=
  match createM tok st0 [name] with
  | (.error e, _) => .error e
  | (.ok f1, st1) =>
      match efWrite key nonce st1 f1 [] with
      | (.error e, _, _) => .error e
      | (.ok _, st2, f2) =>
          match efClose aes tagF key st2 f2 with
          | (.error e, _, _) => .error e
          | (.ok _, st3, f3) =>
              .ok ((alookup st3.backend.files f3.obfuscated).getD [])

/-- Create `name`, write zero bytes, close, reopen; report the result of
the first read call. -/
def emptyReadScenario (aes : List Nat → List Nat → List Nat)
    (tagF : List Nat → List Nat → List Nat → List Nat)
    (tok : String → Except GErr String) (key nonce : List Nat) (st0 : FS)
    (name : String) : Except GErr (Except GErr (List Nat)) :=
  match createM tok st0 [name] with
  | (.error e, _) => .error e
  | (.ok f1, st1) =>
      match efWrite key nonce st1 f1 [] with
      | (.error e, _, _) => .error e
      | (.ok _, st2, f2) =>
          match efClose aes tagF key st2 f2 with
          | (.error e, _, _) => .error e
          | (.ok _, st3, _) =>
              match openM tok st3 [name] with
              | (.error e, _) => .error e
              | (.ok f4, st4) => .ok (efRead aes tagF key 16 st4 f4).1

/-- Create `name` and close the handle without any write call; report the
stored backend bytes. -/
def noWriteScenario (aes : List Nat → List Nat → List Nat)
    (tagF : List Nat → List Nat → List Nat → List Nat)
    (tok : String → Except GErr String) (key : List Nat) (st0 : FS)
    (name : String) : Except GErr (List Nat) :=
  match createM tok st0 [name] with
  | (.error e, _) => .error e
  | (.ok f1, st1) =>
      match efClose aes tagF key st1 f1 with
      | (.error e, _, _) => .error e
      | (.ok _, st2, f2) =>
          .ok ((alookup st2.backend.files f2.obfuscated).getD [])

/-- Create `name`, close without writing, reopen; report the result of the
first read call. -/
def noWriteReadScenario (aes : List Nat → List Nat → List Nat)
    (tagF : List Nat → List Nat → List Nat → List Nat)
    (tok : String → Except GErr String) (key : List Nat) (st0 : FS)
    (name : String) : Except GErr (Except GErr (List Nat)) :=
  match createM tok st0 [name] with
  | (.error e, _) => .error e
  | (.ok f1, st1) =>
      match efClose aes tagF key st1 f1 with
      | (.error e, _, _) => .error e
      | (.ok _, st2, _) =>
          match openM tok st2 [name] with
          | (.error e, _) => .error e
          | (.ok f4, st4) => .ok (efRead aes tagF key 16 st4 f4).1

/-! ## Concrete instantiations used by witnesses and counterexamples -/

def cTok : String → Except GErr String := fun s => .ok ("z" ++ s)
def cAes : List Nat → List Nat → List Nat := fun _ _ => List.replicate 16 7
def cTagF : List Nat → List Nat → List Nat → List Nat := fun _ _ _ => [1, 2, 3]
def cSha : List Nat → List Nat := fun _ => List.replicate 32 9
def cKdf : List Nat → List Nat → Nat → Nat → List Nat :=
  fun pw salt iter len => pw ++ salt ++ [iter, len]
def cKey : List Nat := [0]
def cNonce : List Nat := List.replicate 12 5
def cConfig : Config :=
  { salt := List.replicate 32 0, iterations := 1000, version := "1.0.0" }

/-! ## Claim C2: key derivation is deterministic in (password, salt, iterations) -/

/-- C2: mounting a volume whose config is already persisted derives keys
that do not depend on the mount-time randomness at all — two mounts with
the same password and the same stored `(salt, iterations)` produce
identical master and filename keys, namely exactly
`deriveKeys password salt iterations`; the keys themselves are never read
from storage. -/
theorem mount_twice_same_keys
    (kdf : List Nat → List Nat → Nat → Nat → List Nat) (password : List Nat)
    (c : Config) (r1 r2 : List Nat) (hpw : password ≠ [])
    (hs : c.salt.length = SaltSize) (hi : 0 < c.iterations) :
    newKeys kdf password (some c) r1 = newKeys kdf password (some c) r2 ∧
    newKeys kdf password (some c) r1 =
      .ok (deriveKeys kdf password c.salt c.iterations) := by
  constructor
  · simp [newKeys, loadConfig, hpw, hs, hi]
  · simp [newKeys, loadConfig, hpw, hs, hi, Except.map]

theorem mount_twice_same_keys_witness :
    newKeys cKdf [1] (some cConfig) [0] = newKeys cKdf [1] (some cConfig) [9] ∧
    newKeys cKdf [1] (some cConfig) [0] =
      .ok (deriveKeys cKdf [1] cConfig.salt cConfig.iterations) :=
  mount_twice_same_keys cKdf [1] cConfig [0] [9] (by decide) (by decide)
    (by decide)

/-! ## Claim C5: the 200-byte encoded limit on obfuscated names -/

set_option maxRecDepth 40000 in
/-- C5 (counterexample): a cleartext filename of 143 bytes does not
obfuscate successfully — its token would be base64 of 16 + 143 + 32 = 191
bytes, 256 encoded bytes, over the 200-byte limit, so the source rejects
it. -/
theorem obfuscate_143_rejected :
    (obfuscateFilename cSha cAes cKey (List.replicate 143 97)).isOk = false := by
  decide

/-- C5 (amended): the encoded token is URL-base64 of 16 IV bytes, the
ciphertext of the name, and a 32-byte HMAC, hence `4 * ((len + 50) / 3)`
bytes for a `len`-byte cleartext; names up to 102 bytes fit within the
200-byte encoded limit and succeed, while names of 103 bytes or more
(including 143-byte names) are rejected with the oversize error. -/
theorem obfuscate_length_limit (sha : List Nat → List Nat)
    (aes : List Nat → List Nat → List Nat) (key name : List Nat)
    (hsha : ∀ x, (sha x).length = 32) (hne : name ≠ []) :
    (name.length ≤ 102 →
      obfuscateFilename sha aes key name =
        .ok (base64UrlEncode (((sha (key ++ name)).take 16)
            ++ List.zipWith Nat.xor name
              (ctrKeystream aes key ((sha (key ++ name)).take 16) name.length)
            ++ hmacSha sha key (((sha (key ++ name)).take 16)
              ++ List.zipWith Nat.xor name
                (ctrKeystream aes key ((sha (key ++ name)).take 16) name.length)))) ∧
      ∀ tkn, obfuscateFilename sha aes key name = .ok tkn →
        tkn.length = 4 * ((name.length + 50) / 3) ∧ tkn.length ≤ 200) ∧
    (103 ≤ name.length →
      obfuscateFilename sha aes key name = .error .tooLong) := by
  have hiv : ((sha (key ++ name)).take 16).length = 16 := by
    simp [List.length_take, hsha]
  have hct : (List.zipWith Nat.xor name
      (ctrKeystream aes key ((sha (key ++ name)).take 16) name.length)).length
        = name.length := by
    simp [ctrKeystream_length]
  have hmac : (hmacSha sha key (((sha (key ++ name)).take 16)
      ++ List.zipWith Nat.xor name
        (ctrKeystream aes key ((sha (key ++ name)).take 16) name.length))).length
        = 32 := by
    simp [hmacSha, hsha]
  have henc : (base64UrlEncode (((sha (key ++ name)).take 16)
      ++ List.zipWith Nat.xor name
        (ctrKeystream aes key ((sha (key ++ name)).take 16) name.length)
      ++ hmacSha sha key (((sha (key ++ name)).take 16)
        ++ List.zipWith Nat.xor name
          (ctrKeystream aes key ((sha (key ++ name)).take 16) name.length)))).length
      = 4 * ((name.length + 50) / 3) := by
    rw [base64UrlEncode_length]
    simp only [List.length_append, hiv, hct, hmac]
    omega
  constructor
  · intro hle
    have hok : ¬ (MaxFilenameLen < 4 * ((name.length + 50) / 3)) := by
      simp only [MaxFilenameLen]
      omega
    constructor
    · simp only [obfuscateFilename, if_neg hne]
      rw [if_neg (by rw [henc] at *; exact hok)]
    · intro tkn htkn
      simp only [obfuscateFilename, if_neg hne] at htkn
      rw [if_neg (by rw [henc] at *; exact hok)] at htkn
      cases htkn
      rw [henc]
      constructor
      · rfl
      · omega
  · intro hge
    simp only [obfuscateFilename, if_neg hne]
    rw [if_pos (by rw [henc]; simp only [MaxFilenameLen]; omega)]

theorem obfuscate_length_limit_witness :
    ((List.replicate 102 97 : List Nat).length ≤ 102 →
      obfuscateFilename cSha cAes cKey (List.replicate 102 97) =
        .ok (base64UrlEncode (((cSha (cKey ++ List.replicate 102 97)).take 16)
            ++ List.zipWith Nat.xor (List.replicate 102 97)
              (ctrKeystream cAes cKey
                ((cSha (cKey ++ List.replicate 102 97)).take 16)
                (List.replicate 102 97 : List Nat).length)
            ++ hmacSha cSha cKey
              (((cSha (cKey ++ List.replicate 102 97)).take 16)
                ++ List.zipWith Nat.xor (List.replicate 102 97)
                  (ctrKeystream cAes cKey
                    ((cSha (cKey ++ List.replicate 102 97)).take 16)
                    (List.replicate 102 97 : List Nat).length)))) ∧
      ∀ tkn, obfuscateFilename cSha cAes cKey (List.replicate 102 97) = .ok tkn →
        tkn.length = 4 * (((List.replicate 102 97 : List Nat).length + 50) / 3) ∧
        tkn.length ≤ 200) ∧
    (103 ≤ (List.replicate 102 97 : List Nat).length →
      obfuscateFilename cSha cAes cKey (List.replicate 102 97) =
        .error .tooLong) :=
  obfuscate_length_limit cSha cAes cKey (List.replicate 102 97)
    (fun x => by simp [cSha]) (by decide)

/-! ## Claim C9: write-mode handles are never readable -/

theorem openFileInternalM_isWriteMode
    (tok : String → Except GErr String) (st : FS) (name : Path) (flag : Nat)
    (f2 : EncryptedFile) (st3 : FS)
    (h : openFileInternalM tok st name flag = (.ok f2, st3)) :
    f2.isWriteMode =
      (decide (flag &&& oWRONLY ≠ 0) || decide (flag &&& oRDWR ≠ 0)) := by
  unfold openFileInternalM at h
  by_cases hn : name = []
  · simp [hn] at h
  rw [if_neg hn] at h
  rcases hps : translateForOpen tok st name flag with ⟨r, st1⟩
  rw [hps] at h
  cases r with
  | error e => simp at h
  | ok path =>
    dsimp only at h
    rcases hbo : bOpenFile st1.backend path flag with e | b2 <;> rw [hbo] at h
    · simp at h
    · dsimp only at h
      simp only [Prod.mk.injEq, Except.ok.injEq] at h
      obtain ⟨h1, h2⟩ := h
      subst h1
      simp [decide_not]

/-- C9: a handle is in write mode exactly when `O_WRONLY` or `O_RDWR` is
set (so every handle returned by `Create`, which uses
`O_RDWR plus O_CREATE plus O_TRUNC`, is write-mode); any `Read` or `ReadAt`
on a write-mode handle fails with the wrong-mode error even while the
handle is open, and conversely `Write` on a non-write-mode handle fails
with the wrong-mode error — a handle is never simultaneously readable and
writable. -/
theorem write_mode_excludes_read (aes : List Nat → List Nat → List Nat)
    (tagF : List Nat → List Nat → List Nat → List Nat)
    (key nonce : List Nat) (n : Nat) (off : Int) (p : List Nat) (st : FS)
    (f : EncryptedFile) (hcl : f.closed = false) :
    (f.isWriteMode = true →
      (efRead aes tagF key n st f).1 = .error .wrongMode ∧
      (efReadAt aes tagF key n off st f).1 = .error .wrongMode) ∧
    (f.isWriteMode = false →
      (efWrite key nonce st f p).1 = .error .wrongMode) ∧
    (∀ (tok : String → Except GErr String) (st2 : FS) (name : Path)
        (flag : Nat) (f2 : EncryptedFile) (st3 : FS),
      openFileInternalM tok st2 name flag = (.ok f2, st3) →
      f2.isWriteMode =
        (decide (flag &&& oWRONLY ≠ 0) || decide (flag &&& oRDWR ≠ 0))) ∧
    (∀ (tok : String → Except GErr String) (st2 : FS) (name : Path)
        (f2 : EncryptedFile) (st3 : FS),
      createM tok st2 name = (.ok f2, st3) → f2.isWriteMode = true) := by
  refine ⟨?_, ?_, ?_, ?_⟩
  · intro hw
    constructor
    · simp [efRead, hcl, hw]
    · simp [efReadAt, hcl, hw]
  · intro hw
    simp [efWrite, hcl, hw]
  · intro tok st2 name flag f2 st3 h
    exact openFileInternalM_isWriteMode tok st2 name flag f2 st3 h
  · intro tok st2 name f2 st3 h
    have := openFileInternalM_isWriteMode tok st2 name
      (oRDWR ||| (oCREATE ||| oTRUNC)) f2 st3 h
    rw [this]
    decide

theorem write_mode_excludes_read_witness :
    (({ obfuscated := [], filename := [], flag := 578, isWriteMode := true } :
        EncryptedFile).isWriteMode = true →
      (efRead cAes cTagF cKey 4 fsEmpty
        { obfuscated := [], filename := [], flag := 578,
          isWriteMode := true }).1 = .error .wrongMode ∧
      (efReadAt cAes cTagF cKey 4 0 fsEmpty
        { obfuscated := [], filename := [], flag := 578,
          isWriteMode := true }).1 = .error .wrongMode) ∧
    (({ obfuscated := [], filename := [], flag := 578, isWriteMode := true } :
        EncryptedFile).isWriteMode = false →
      (efWrite cKey cNonce fsEmpty
        { obfuscated := [], filename := [], flag := 578, isWriteMode := true }
        [1]).1 = .error .wrongMode) ∧
    (∀ (tok : String → Except GErr String) (st2 : FS) (name : Path)
        (flag : Nat) (f2 : EncryptedFile) (st3 : FS),
      openFileInternalM tok st2 name flag = (.ok f2, st3) →
      f2.isWriteMode =
        (decide (flag &&& oWRONLY ≠ 0) || decide (flag &&& oRDWR ≠ 0))) ∧
    (∀ (tok : String → Except GErr String) (st2 : FS) (name : Path)
        (f2 : EncryptedFile) (st3 : FS),
      createM tok st2 name = (.ok f2, st3) → f2.isWriteMode = true) :=
  write_mode_excludes_read cAes cTagF cKey cNonce 4 0 [1] fsEmpty
    { obfuscated := [], filename := [], flag := 578, isWriteMode := true } rfl

/-! ## Claim C10: ReadAt leaves the sequential cursor untouched -/

/-- C10: on an initialized read-mode handle, `ReadAt` returns the state and
the handle completely unchanged — in particular the decrypted buffer and
the cursor used by `Read` — so a `Read` issued after any `ReadAt` behaves
exactly as if the `ReadAt` had not happened. -/
theorem readAt_preserves_cursor (aes : List Nat → List Nat → List Nat)
    (tagF : List Nat → List Nat → List Nat → List Nat) (key : List Nat)
    (n : Nat) (off : Int) (st : FS) (f : EncryptedFile)
    (hinit : f.readInitialized = true) (hcl : f.closed = false)
    (hwm : f.isWriteMode = false) (hoff : 0 ≤ off) :
    (efReadAt aes tagF key n off st f).2 = (st, f) ∧
    ∀ k, efRead aes tagF key k (efReadAt aes tagF key n off st f).2.1
        (efReadAt aes tagF key n off st f).2.2 = efRead aes tagF key k st f := by
  have h2 : (efReadAt aes tagF key n off st f).2 = (st, f) := by
    unfold efReadAt efInit
    simp only [hcl, hwm, hinit, if_true, if_false, Bool.false_eq_true,
      ite_true, ite_false]
    repeat' split
    all_goals rfl
  exact ⟨h2, fun k => by rw [h2]⟩

theorem readAt_preserves_cursor_witness :
    ((efReadAt cAes cTagF cKey 3 1 fsEmpty
        { obfuscated := [], filename := [], flag := 0, isWriteMode := false,
          readInitialized := true, drDecrypted := [4, 5, 6], drPos := 1 }).2 =
      (fsEmpty,
        { obfuscated := [], filename := [], flag := 0, isWriteMode := false,
          readInitialized := true, drDecrypted := [4, 5, 6], drPos := 1 }) ∧
    ∀ k, efRead cAes cTagF cKey k
        (efReadAt cAes cTagF cKey 3 1 fsEmpty
          { obfuscated := [], filename := [], flag := 0, isWriteMode := false,
            readInitialized := true, drDecrypted := [4, 5, 6], drPos := 1 }).2.1
        (efReadAt cAes cTagF cKey 3 1 fsEmpty
          { obfuscated := [], filename := [], flag := 0, isWriteMode := false,
            readInitialized := true, drDecrypted := [4, 5, 6], drPos := 1 }).2.2 =
      efRead cAes cTagF cKey k fsEmpty
        { obfuscated := [], filename := [], flag := 0, isWriteMode := false,
          readInitialized := true, drDecrypted := [4, 5, 6], drPos := 1 }) :=
  readAt_preserves_cursor cAes cTagF cKey 3 1 fsEmpty
    { obfuscated := [], filename := [], flag := 0, isWriteMode := false,
      readInitialized := true, drDecrypted := [4, 5, 6], drPos := 1 }
    rfl rfl rfl (by decide)

/-! ## Claim C3: filemap-level round trip -/

theorem collide_reuse_lookup (m : FilenameMap) (base filename tf : String) :
    ∀ fuel cand counter,
      collide m base filename cand fuel counter = some (tf, false) →
      alookup m tf = some filename := by
  intro fuel
  induction fuel with
  | zero => intro cand counter h; simp [collide] at h
  | succ k ih =>
    intro cand counter h
    rw [collide] at h
    cases hl : alookup m cand with
    | none =>
      rw [hl] at h
      simp at h
    | some orig =>
      rw [hl] at h
      dsimp only at h
      by_cases ho : orig = filename
      · rw [if_pos ho] at h
        simp only [Option.some.injEq, Prod.mk.injEq] at h
        obtain ⟨h1, _⟩ := h
        subst h1
        rw [hl, ho]
      · rw [if_neg ho] at h
        exact ih _ _ h

/-- After a successful `updateFilemap tok st dir original obf`, the map
stored for `dir` binds `obf` to `original`. -/
theorem updateFilemap_binds (tok : String → Except GErr String) (st st2 : FS)
    (dir : Path) (original obf : String) (r : Except GErr Unit)
    (h : updateFilemap tok st dir original obf = (r, st2)) (hok : r = .ok ()) :
    alookup (loadFilemap st2 dir) obf = some original := by
  subst hok
  rw [updateFilemap] at h
  rcases he : ensureGrainFSDir tok st dir with ⟨re, st1⟩
  rw [he] at h
  cases re with
  | error e => simp at h
  | ok u =>
    dsimp only at h
    rw [saveFilemap] at h
    rcases hg : getObfuscatedPath tok st1 dir with ⟨rg, stg⟩
    rw [hg] at h
    cases rg with
    | error e => simp at h
    | ok op =>
      dsimp only at h
      simp only [Prod.mk.injEq] at h
      obtain ⟨_, h2⟩ := h
      subst h2
      simp only [loadFilemap, alookup_aset_self, Option.getD_some]

/-- C3: whenever `obfuscateFilename(D, n)` succeeds with a (non-empty,
non-reserved) token `t`, deobfuscating `t` against the same directory in
the resulting state returns exactly `n` — either the token was reused from
an existing binding, or the freshly persisted binding resolves it.  (Real
tokens are at least 88 base64 characters, so the two token side conditions
always hold for them.) -/
theorem obfuscate_deobfuscate_roundtrip (tok : String → Except GErr String)
    (st0 st1 : FS) (dir : Path) (n t : String)
    (hobf : obfuscateFilenameM tok st0 dir n = (.ok t, st1))
    (hne : t ≠ "") (hsc : sidecarName t = false) :
    deobfuscateFilenameM st1 dir t = .ok n := by
  rw [obfuscateFilenameM] at hobf
  by_cases h1 : n = ""
  · simp [h1] at hobf
  rw [if_neg h1] at hobf
  by_cases h2 : sidecarName n
  · rw [if_pos h2] at hobf
    simp only [Prod.mk.injEq, Except.ok.injEq] at hobf
    obtain ⟨rfl, rfl⟩ := hobf
    rw [hsc] at h2
    exact absurd h2 (by simp)
  rw [if_neg h2] at hobf
  cases htk : tok n with
  | error e => rw [htk] at hobf; simp at hobf
  | ok tk =>
    rw [htk] at hobf
    dsimp only at hobf
    cases hc : collide (loadFilemap st0 dir) tk n tk
        ((loadFilemap st0 dir).length + 1) 1 with
    | none => rw [hc] at hobf; simp at hobf
    | some pr =>
      rw [hc] at hobf
      rcases pr with ⟨tf, needInsert⟩
      cases needInsert with
      | false =>
        dsimp only at hobf
        simp only [Prod.mk.injEq, Except.ok.injEq] at hobf
        obtain ⟨rfl, rfl⟩ := hobf
        have hl := collide_reuse_lookup (loadFilemap st0 dir) tk n tf _ _ _ hc
        rw [deobfuscateFilenameM, if_neg hne, if_neg (by simp [hsc]), hl]
      | true =>
        dsimp only at hobf
        rcases hu : updateFilemap tok st0 dir n tf with ⟨ru, stu⟩
        rw [hu] at hobf
        cases ru with
        | error e => simp at hobf
        | ok u =>
          dsimp only at hobf
          simp only [Prod.mk.injEq, Except.ok.injEq] at hobf
          obtain ⟨rfl, rfl⟩ := hobf
          have hb := updateFilemap_binds tok st0 stu dir n tf (.ok u) hu rfl
          rw [deobfuscateFilenameM, if_neg hne, if_neg (by simp [hsc]), hb]

theorem obfuscate_deobfuscate_roundtrip_witness :
    deobfuscateFilenameM
      (obfuscateFilenameM cTok fsEmpty ["d"] "a.txt").2 ["d"]
      "za.txt" = .ok "a.txt" :=
  obfuscate_deobfuscate_roundtrip cTok fsEmpty
    (obfuscateFilenameM cTok fsEmpty ["d"] "a.txt").2 ["d"] "a.txt" "za.txt"
    (by
      have h1 : (obfuscateFilenameM cTok fsEmpty ["d"] "a.txt").1 =
          .ok "za.txt" := by
        simp [obfuscateFilenameM, collide, updateFilemap, ensureGrainFSDir,
          saveFilemap, getObfuscatedPath, getObfuscatedPathAux, loadFilemap,
          alookup, aset, addDir, cTok, fsEmpty,
          show sidecarName "a.txt" = false from by decide,
          show sidecarName "d" = false from by decide]
      have h2 : obfuscateFilenameM cTok fsEmpty ["d"] "a.txt" =
          ((obfuscateFilenameM cTok fsEmpty ["d"] "a.txt").1,
           (obfuscateFilenameM cTok fsEmpty ["d"] "a.txt").2) := rfl
      rw [h2, h1])
    (by decide) (by decide)

/-! ## Claim C8: path translation mutates the filemap even on failing Stat -/

theorem bStat_addDir_false (b : Backend) (p d : Path)
    (h : bStat b p = false) (h1 : p ≠ d) (h2 : leadsTo p d = false) :
    bStat (addDir b d) p = false := by
  rw [addDir]
  split
  · exact h
  · simp only [bStat, List.any_cons] at h ⊢
    have hd : decide (d = p) = false := by
      rw [decide_eq_false_iff_not]
      exact fun hdp => h1 hdp.symm
    rw [hd, h2]
    simpa using h

/-- C8: translating a single-component path through `getObfuscatedPath`
(as `Stat` does) inserts the basename's token into the root filemap and
persists it, even though the file does not exist on the backend — the
`Stat` itself fails with the not-found error, yet the resulting state maps
the token to the name. -/
theorem stat_inserts_mapping (tok : String → Except GErr String) (st0 : FS)
    (name t : String)
    (hname : name ≠ "") (hdot : name ≠ ".") (hsc : sidecarName name = false)
    (htok : tok name = .ok t)
    (hfresh : alookup (loadFilemap st0 []) t = none)
    (hnb : bStat st0.backend [t] = false) (htg : t ≠ GrainFSDir) :
    (statM tok st0 [name]).1 = .error .notFound ∧
    alookup (loadFilemap (statM tok st0 [name]).2 []) t = some name := by
  have hmain : statM tok st0 [name] =
      (.error .notFound,
        { backend := addDir st0.backend [GrainFSDir],
          filemaps := aset st0.filemaps []
            (aset (loadFilemap st0 []) t name) }) := by
    rw [statM, getObfuscatedPath, getObfuscatedPathAux]
    rw [if_neg (by simp [hname, hdot])]
    rw [obfuscateFilenameM, if_neg hname, if_neg (by simp [hsc]), htok]
    dsimp only
    rw [collide, hfresh]
    dsimp only
    rw [updateFilemap, ensureGrainFSDir, getObfuscatedPath, getObfuscatedPathAux]
    dsimp only
    rw [saveFilemap, getObfuscatedPath, getObfuscatedPathAux]
    dsimp only
    rw [getObfuscatedPathAux]
    dsimp only
    have hb2 : bStat (addDir st0.backend [GrainFSDir]) [t] = false := by
      refine bStat_addDir_false st0.backend [t] [GrainFSDir] hnb ?_ ?_
      · simpa using htg
      · simp [leadsTo]
    simp [hb2, loadFilemap]
  rw [hmain]
  constructor
  · rfl
  · simp only [loadFilemap, alookup_aset_self, Option.getD_some]

theorem stat_inserts_mapping_witness :
    (statM cTok fsEmpty ["f.txt"]).1 = .error .notFound ∧
    alookup (loadFilemap (statM cTok fsEmpty ["f.txt"]).2 []) "zf.txt" =
      some "f.txt" :=
  stat_inserts_mapping cTok fsEmpty "f.txt" "zf.txt" (by decide) (by decide)
    (by decide) rfl (by decide) (by decide) (by decide)

/-! ## Claim C6: ReadDir skips the sidecar and silently drops unmapped entries -/

/-- C6: `ReadDir` lists the backend directory and returns exactly the
deobfuscations found in the directory's filemap: the `.grainfs` sidecar
entry is dropped, every other entry is looked up in the parent's filemap,
and entries whose deobfuscation fails (unmapped tokens) are silently
skipped with no overall error; no returned entry is named `.grainfs`.
The two side conditions on listings say backend entry names are non-empty
single components, which is what a backend `ReadDir` produces. -/
theorem readDir_filters (tok : String → Except GErr String) (st0 : FS)
    (p op : Path) (st1 : FS)
    (hpath : getObfuscatedPath tok st0 p = (.ok op, st1))
    (hex : bStat st1.backend op = true)
    (hcomp : ∀ e ∈ childNames st1.backend op,
      e ≠ "" ∧ strStarts (GrainFSDir ++ "/") e = false)
    (hval : ∀ kv ∈ loadFilemap st1 p, kv.2 ≠ GrainFSDir) :
    readDirM tok st0 p =
      (.ok ((childNames st1.backend op).filterMap (fun e =>
        if e = GrainFSDir then none else alookup (loadFilemap st1 p) e)), st1) ∧
    ∀ nm ∈ (childNames st1.backend op).filterMap (fun e =>
        if e = GrainFSDir then none else alookup (loadFilemap st1 p) e),
      nm ≠ GrainFSDir := by
  constructor
  · rw [readDirM, hpath]
    dsimp only
    rw [if_pos hex]
    refine congrArg (fun l => (Except.ok l, st1)) ?_
    apply List.filterMap_congr
    intro e he
    by_cases hg : e = GrainFSDir
    · simp [hg]
    · obtain ⟨hne, hpre⟩ := hcomp e he
      rw [if_neg hg, if_neg hg]
      rw [deobfuscateFilenameM, if_neg hne,
        if_neg (by simp [sidecarName, hg, hpre])]
      cases alookup (loadFilemap st1 p) e <;> rfl
  · intro nm hnm
    simp only [List.mem_filterMap] at hnm
    obtain ⟨e, he, hcase⟩ := hnm
    by_cases hg : e = GrainFSDir
    · rw [if_pos hg] at hcase
      exact absurd hcase (by simp)
    · rw [if_neg hg] at hcase
      exact hval (e, nm) (alookup_mem _ _ _ hcase)

/-- A small populated volume used to witness the ReadDir theorem. -/
def cStateC6 : FS :=
  { backend := { files := [([GrainFSDir, "config.json"], []), (["ztest.txt"], [])],
                 dirs := [] },
    filemaps := [([], [("ztest.txt", "test.txt")])] }

theorem readDir_filters_witness :
    (readDirM cTok cStateC6 [] =
      (.ok ((childNames cStateC6.backend []).filterMap (fun e =>
        if e = GrainFSDir then none else alookup (loadFilemap cStateC6 []) e)),
       cStateC6) ∧
    ∀ nm ∈ (childNames cStateC6.backend []).filterMap (fun e =>
        if e = GrainFSDir then none else alookup (loadFilemap cStateC6 []) e),
      nm ≠ GrainFSDir) :=
  readDir_filters cTok cStateC6 [] [] cStateC6
    (by simp [getObfuscatedPath, getObfuscatedPathAux])
    (by decide) (by decide) (by decide)

/-! ## Claim C1: content round trip through the envelope -/

/-- Draining an initialized read handle with repeated 512-byte reads
returns everything from the cursor to the end of the decrypted buffer and
leaves the filesystem state untouched. -/
theorem efReadAllAux_drain (aes : List Nat → List Nat → List Nat)
    (tagF : List Nat → List Nat → List Nat → List Nat) (key : List Nat) :
    ∀ (fuel : Nat) (st : FS) (f : EncryptedFile) (acc : List Nat),
      f.closed = false → f.isWriteMode = false → f.readInitialized = true →
      f.drDecrypted.length - f.drPos + 1 ≤ fuel →
      (efReadAllAux aes tagF key fuel st f acc).1 =
        .ok (acc ++ f.drDecrypted.drop f.drPos) ∧
      (efReadAllAux aes tagF key fuel st f acc).2.1 = st := by
  intro fuel
  induction fuel with
  | zero =>
    intro st f acc h1 h2 h3 h4
    omega
  | succ k ih =>
    intro st f acc h1 h2 h3 h4
    rw [efReadAllAux]
    rw [efRead, if_neg (by simp [h1]), if_neg (by simp [h2]), efInit,
      if_pos h3]
    dsimp only
    by_cases hav : f.drDecrypted.length - f.drPos = 0
    · rw [if_pos hav]
      constructor
      · have hnil : f.drDecrypted.drop f.drPos = [] :=
          List.drop_eq_nil_of_le (by omega)
        simp [hnil]
      · rfl
    · rw [if_neg hav]
      dsimp only
      have hm : 1 ≤ min 512 (f.drDecrypted.length - f.drPos) := by omega
      have ihh := ih st
        { f with drPos := f.drPos + min 512 (f.drDecrypted.length - f.drPos) }
        (acc ++ (f.drDecrypted.drop f.drPos).take
          (min 512 (f.drDecrypted.length - f.drPos)))
        h1 h2 h3 (by simp only; omega)
      obtain ⟨ih1, ih2⟩ := ihh
      refine ⟨?_, ih2⟩
      rw [ih1]
      simp only
      congr 1
      rw [List.append_assoc]
      congr 1
      have hdd : f.drDecrypted.drop
          (f.drPos + min 512 (f.drDecrypted.length - f.drPos)) =
          (f.drDecrypted.drop f.drPos).drop
            (min 512 (f.drDecrypted.length - f.drPos)) := by
        rw [List.drop_drop]
      rw [hdd, List.take_append_drop]

/-- Creating a root-level file whose token is not yet mapped: the filemap
gains the binding, the sidecar directory is ensured, the backend file is
created empty, and the returned handle is a fresh write-mode envelope. -/
theorem createM_spec (tok : String → Except GErr String) (st0 : FS)
    (name t : String) (hname : name ≠ "") (hdot : name ≠ ".")
    (hsc : sidecarName name = false) (htok : tok name = .ok t)
    (hfresh : alookup (loadFilemap st0 []) t = none) :
    createM tok st0 [name] =
      (.ok { obfuscated := [t], filename := [name], flag := 578,
             isWriteMode := true },
       { backend := setFile (addDir st0.backend [GrainFSDir]) [t] [],
         filemaps := aset st0.filemaps [] (aset (loadFilemap st0 []) t name) }) := by
  rw [createM, openFileInternalM, if_neg (by simp)]
  rw [translateForOpen, if_pos (by decide)]
  have hgl : [name].getLastD "." = name := rfl
  have hdl : [name].dropLast = ([] : Path) := rfl
  rw [hdl, hgl]
  dsimp only
  rw [if_pos rfl]
  simp only [getObfuscatedPath, getObfuscatedPathAux]
  rw [obfuscateFilenameM, if_neg hname, if_neg (by simp [hsc]), htok]
  dsimp only
  rw [collide, hfresh]
  dsimp only
  rw [updateFilemap, ensureGrainFSDir, getObfuscatedPath, getObfuscatedPathAux]
  dsimp only
  rw [saveFilemap, getObfuscatedPath, getObfuscatedPathAux]
  dsimp only
  rw [bOpenFile, if_pos (by decide)]
  rw [if_pos (by simp [oRDWR, oCREATE, oTRUNC])]
  simp [loadFilemap, setFile, oRDWR, oCREATE, oTRUNC, oWRONLY]

/-- Opening (read-only) a root-level file whose token is already bound to
its name and whose backend file exists: a pure lookup returning a
read-mode envelope, with no state change. -/
theorem openM_spec (tok : String → Except GErr String) (st : FS)
    (name t : String) (content : List Nat)
    (hname : name ≠ "") (hdot : name ≠ ".")
    (hsc : sidecarName name = false) (htok : tok name = .ok t)
    (hbound : alookup (loadFilemap st []) t = some name)
    (hfile : alookup st.backend.files [t] = some content) :
    openM tok st [name] =
      (.ok { obfuscated := [t], filename := [name], flag := 0,
             isWriteMode := false }, st) := by
  rw [openM, openFileInternalM, if_neg (by simp)]
  rw [translateForOpen, if_neg (by decide)]
  rw [getObfuscatedPath, getObfuscatedPathAux]
  rw [if_neg (by simp [hname, hdot])]
  rw [obfuscateFilenameM, if_neg hname, if_neg (by simp [hsc]), htok]
  dsimp only
  rw [collide, hbound]
  dsimp only
  rw [if_pos rfl]
  dsimp only
  rw [getObfuscatedPathAux]
  dsimp only
  rw [bOpenFile, if_neg (by decide)]
  rw [if_pos (by simp [hfile])]
  simp [oRDONLY, oWRONLY, oRDWR]

theorem alookup_setFile_self (b : Backend) (p : Path) (d : List Nat) :
    alookup (setFile b p d).files p = some d := by
  simp [setFile, alookup_aset_self]

/-- The first write on a write-mode handle: the nonce goes to the backend
file and the plaintext is buffered. -/
theorem efWrite_fresh (key nonce : List Nat) (st : FS) (f : EncryptedFile)
    (data content : List Nat) (hcl : f.closed = false)
    (hwm : f.isWriteMode = true) (hws : f.writerStarted = false)
    (hlook : alookup st.backend.files f.obfuscated = some content) :
    efWrite key nonce st f data =
      (.ok data.length,
       { st with backend := setFile st.backend f.obfuscated (content ++ nonce) },
       { f with writerStarted := true, wNonce := nonce,
                wBuffer := f.wBuffer ++ data }) := by
  rw [efWrite, if_neg (by simp [hcl]), if_neg (by simp [hwm]), if_pos hws,
    hlook]

/-- Closing a handle whose writer is started: the sealed blob is appended
after the nonce already written. -/
theorem efClose_writer (aes : List Nat → List Nat → List Nat)
    (tagF : List Nat → List Nat → List Nat → List Nat) (key : List Nat)
    (st : FS) (f : EncryptedFile) (content : List Nat)
    (hcl : f.closed = false) (hws : f.writerStarted = true)
    (hlook : alookup st.backend.files f.obfuscated = some content) :
    efClose aes tagF key st f =
      (.ok (),
       { st with backend := (setFile st.backend f.obfuscated
           (content ++ gcmSeal aes tagF key f.wNonce f.wBuffer)) },
       { f with closed := true }) := by
  rw [efClose, if_neg (by simp [hcl]), if_pos hws]
  rw [hlook]

/-- `DecryptingReader.initialize` inverts the envelope the encrypting
writer produced. -/
theorem drInit_envelope (aes : List Nat → List Nat → List Nat)
    (tagF : List Nat → List Nat → List Nat → List Nat)
    (key nonce pt : List Nat) (hn : nonce.length = NonceSize) :
    drInit aes tagF key (nonce ++ gcmSeal aes tagF key nonce pt) = .ok pt := by
  have hslen : (gcmSeal aes tagF key nonce pt).length = pt.length + TagSize := by
    simp [gcmSeal, gcmKeystream_length, padTo_length, gcmTag]
  rw [drInit, if_neg (by
      simp only [List.length_append, hn, hslen, NonceSize, TagSize]
      omega), ← hn,
    List.take_left, List.drop_left]
  exact gcmOpen_gcmSeal aes tagF key nonce pt

/-- Read-all on a fresh read-mode handle: the decrypted buffer is returned
whole, and the state is untouched. -/
theorem efReadAll_spec (aes : List Nat → List Nat → List Nat)
    (tagF : List Nat → List Nat → List Nat → List Nat) (key : List Nat)
    (st : FS) (f : EncryptedFile) (content dec : List Nat)
    (hcl : f.closed = false) (hwm : f.isWriteMode = false)
    (hini : f.readInitialized = false)
    (hlook : alookup st.backend.files f.obfuscated = some content)
    (hdec : drInit aes tagF key content = .ok dec)
    (hlen : dec.length ≤ content.length) :
    (efReadAll aes tagF key st f).1 = .ok dec ∧
    (efReadAll aes tagF key st f).2.1 = st := by
  rw [efReadAll, hlook]
  dsimp only [Option.getD_some]
  rw [efReadAllAux]
  rw [efRead, if_neg (by simp [hcl]), if_neg (by simp [hwm]), efInit,
    if_neg (by simp [hini]), hlook]
  dsimp only
  rw [hdec]
  dsimp only
  by_cases hd : dec.length - 0 = 0
  · rw [if_pos hd]
    have hdn : dec = [] := List.length_eq_zero.mp (by omega)
    subst hdn
    exact ⟨rfl, rfl⟩
  · rw [if_neg hd]
    dsimp only
    have hdr := efReadAllAux_drain aes tagF key (content.length + 1) st
      { f with readInitialized := true, drDecrypted := dec,
               drPos := 0 + min 512 (dec.length - 0) }
      ([] ++ (dec.drop 0).take (min 512 (dec.length - 0)))
      hcl hwm rfl (by simp only; omega)
    obtain ⟨ih1, ih2⟩ := hdr
    rw [ih1]
    refine ⟨?_, ih2⟩
    simp only [List.nil_append, List.drop_zero, Nat.zero_add, Nat.sub_zero,
      List.take_append_drop]

/-- C1: for every acceptable fresh filename and every byte string, the
sequence create, write, close, open, read-all returns exactly the bytes
written: the encrypting writer stores the nonce and the sealed blob, and
the decrypting reader recovers the plaintext unchanged. -/
theorem write_read_roundtrip (aes : List Nat → List Nat → List Nat)
    (tagF : List Nat → List Nat → List Nat → List Nat)
    (tok : String → Except GErr String) (key nonce : List Nat) (st0 : FS)
    (name : String) (data : List Nat) (t : String)
    (hname : name ≠ "") (hdot : name ≠ ".") (hsc : sidecarName name = false)
    (htok : tok name = .ok t) (hfresh : alookup (loadFilemap st0 []) t = none)
    (hn : nonce.length = NonceSize) :
    writeReadScenario aes tagF tok key nonce st0 name data = .ok data := by
  rw [writeReadScenario,
    createM_spec tok st0 name t hname hdot hsc htok hfresh]
  dsimp only
  rw [efWrite_fresh key nonce _ _ data [] rfl rfl rfl
    (alookup_setFile_self _ _ _)]
  dsimp only
  rw [List.nil_append, List.nil_append]
  rw [efClose_writer aes tagF key _ _ nonce rfl rfl (alookup_setFile_self _ _ _)]
  dsimp only
  rw [openM_spec tok _ name t
    (nonce ++ gcmSeal aes tagF key nonce data) hname hdot hsc htok
    (by simp [loadFilemap, alookup_aset_self])
    (alookup_setFile_self _ _ _)]
  dsimp only
  have hr := efReadAll_spec aes tagF key
    { backend := setFile
        (setFile (setFile (addDir st0.backend [GrainFSDir]) [t] []) [t] nonce)
        [t] (nonce ++ gcmSeal aes tagF key nonce data),
      filemaps := aset st0.filemaps [] (aset (loadFilemap st0 []) t name) }
    { obfuscated := [t], filename := [name], flag := 0, isWriteMode := false }
    (nonce ++ gcmSeal aes tagF key nonce data) data rfl rfl rfl
    (alookup_setFile_self _ _ _)
    (drInit_envelope aes tagF key nonce data hn)
    (by
      have : (gcmSeal aes tagF key nonce data).length =
          data.length + TagSize := by
        simp [gcmSeal, gcmKeystream_length, padTo_length, gcmTag]
      simp [this]
      omega)
  obtain ⟨hr, _⟩ := hr
  rcases hra : efReadAll aes tagF key
    { backend := setFile
        (setFile (setFile (addDir st0.backend [GrainFSDir]) [t] []) [t] nonce)
        [t] (nonce ++ gcmSeal aes tagF key nonce data),
      filemaps := aset st0.filemaps [] (aset (loadFilemap st0 []) t name) }
    { obfuscated := [t], filename := [name], flag := 0, isWriteMode := false }
    with ⟨r, st5, f5⟩
  rw [hra] at hr
  dsimp only at hr
  rw [hr]

theorem write_read_roundtrip_witness :
    writeReadScenario cAes cTagF cTok cKey cNonce fsEmpty "a.txt"
      [1, 2, 3, 4, 5] = .ok [1, 2, 3, 4, 5] :=
  write_read_roundtrip cAes cTagF cTok cKey cNonce fsEmpty "a.txt"
    [1, 2, 3, 4, 5] "za.txt" (by decide) (by decide) (by decide) rfl
    (by decide) (by decide)

/-! ## Claim C7: empty files and the minimal envelope -/

/-- Closing a handle that never started its writer leaves the backend file
untouched. -/
theorem efClose_idle (aes : List Nat → List Nat → List Nat)
    (tagF : List Nat → List Nat → List Nat → List Nat) (key : List Nat)
    (st : FS) (f : EncryptedFile) (hcl : f.closed = false)
    (hws : f.writerStarted = false) :
    efClose aes tagF key st f = (.ok (), st, { f with closed := true }) := by
  rw [efClose, if_neg (by simp [hcl]), if_neg (by simp [hws])]

/-- C7 (counterexample): a file created and closed with no write call at
all stores zero bytes — not a nonce-plus-tag envelope — its bytes do not
decrypt to the empty string (decryption reports the short-envelope error),
and the first read on reopening fails with the nonce-read error instead of
a clean EOF. -/
theorem create_close_no_write_empty_file :
    noWriteScenario cAes cTagF cTok cKey fsEmpty "n.txt" = .ok [] ∧
    decryptData cAes cTagF cKey [] = .error .corrupt ∧
    ([] : List Nat).length ≠ NonceSize + TagSize ∧
    noWriteReadScenario cAes cTagF cTok cKey fsEmpty "n.txt" =
      .ok (.error .corrupt) := by
  refine ⟨?_, by decide, by decide, ?_⟩
  · rw [noWriteScenario,
      createM_spec cTok fsEmpty "n.txt" "zn.txt" (by decide) (by decide)
        (by decide) rfl (by decide)]
    dsimp only
    rw [efClose_idle cAes cTagF cKey _ _ rfl rfl]
    dsimp only
    rw [alookup_setFile_self]
    rfl
  · rw [noWriteReadScenario,
      createM_spec cTok fsEmpty "n.txt" "zn.txt" (by decide) (by decide)
        (by decide) rfl (by decide)]
    dsimp only
    rw [efClose_idle cAes cTagF cKey _ _ rfl rfl]
    dsimp only
    rw [openM_spec cTok _ "n.txt" "zn.txt" [] (by decide) (by decide)
      (by decide) rfl (by simp [loadFilemap, alookup_aset_self])
      (alookup_setFile_self _ _ _)]
    dsimp only
    rw [efRead, if_neg (by simp), if_neg (by simp), efInit, if_neg (by simp),
      alookup_setFile_self]
    dsimp only
    rw [drInit, if_pos (by decide)]

/-- C7 (amended): a logically empty file (a stored empty-plaintext
envelope) returns EOF on the first read; writing zero bytes and closing
produces the minimal envelope — the 12-byte nonce followed by the 16-byte
tag, 28 bytes in total — which decrypts to the empty byte string.  But a
file created and closed with no write call at all stores zero bytes, which
is not a valid envelope: decrypting it fails with the short-envelope
error, and the first read after reopening fails the nonce read rather
than returning EOF. -/
theorem empty_write_minimal_envelope (aes : List Nat → List Nat → List Nat)
    (tagF : List Nat → List Nat → List Nat → List Nat)
    (tok : String → Except GErr String) (key nonce : List Nat) (st0 : FS)
    (name t : String)
    (hname : name ≠ "") (hdot : name ≠ ".") (hsc : sidecarName name = false)
    (htok : tok name = .ok t) (hfresh : alookup (loadFilemap st0 []) t = none)
    (hn : nonce.length = NonceSize) :
    emptyWriteScenario aes tagF tok key nonce st0 name =
      .ok (nonce ++ gcmTag tagF key nonce []) ∧
    (nonce ++ gcmTag tagF key nonce []).length = NonceSize + TagSize ∧
    decryptData aes tagF key (nonce ++ gcmTag tagF key nonce []) = .ok [] ∧
    emptyReadScenario aes tagF tok key nonce st0 name =
      .ok (.error .eofE) ∧
    noWriteScenario aes tagF tok key st0 name = .ok [] ∧
    noWriteReadScenario aes tagF tok key st0 name =
      .ok (.error .corrupt) := by
  have hseal : gcmSeal aes tagF key nonce [] = gcmTag tagF key nonce [] := by
    simp [gcmSeal]
  refine ⟨?_, ?_, ?_, ?_, ?_, ?_⟩
  · rw [emptyWriteScenario,
      createM_spec tok st0 name t hname hdot hsc htok hfresh]
    dsimp only
    rw [efWrite_fresh key nonce _ _ [] [] rfl rfl rfl
      (alookup_setFile_self _ _ _)]
    dsimp only
    rw [List.nil_append, List.append_nil]
    rw [efClose_writer aes tagF key _ _ nonce rfl rfl
      (alookup_setFile_self _ _ _)]
    dsimp only
    rw [alookup_setFile_self]
    dsimp only [Option.getD_some]
    rw [hseal]
  · simp [List.length_append, hn, gcmTag, padTo_length]
  · rw [show nonce ++ gcmTag tagF key nonce [] =
        encryptData aes tagF key nonce [] by
      rw [encryptData, hseal]]
    exact decryptData_encryptData aes tagF key nonce [] hn
  · rw [emptyReadScenario,
      createM_spec tok st0 name t hname hdot hsc htok hfresh]
    dsimp only
    rw [efWrite_fresh key nonce _ _ [] [] rfl rfl rfl
      (alookup_setFile_self _ _ _)]
    dsimp only
    rw [List.nil_append, List.append_nil]
    rw [efClose_writer aes tagF key _ _ nonce rfl rfl
      (alookup_setFile_self _ _ _)]
    dsimp only
    rw [openM_spec tok _ name t (nonce ++ gcmSeal aes tagF key nonce [])
      hname hdot hsc htok (by simp [loadFilemap, alookup_aset_self])
      (alookup_setFile_self _ _ _)]
    dsimp only
    rw [efRead, if_neg (by simp), if_neg (by simp), efInit, if_neg (by simp),
      alookup_setFile_self]
    dsimp only
    rw [drInit_envelope aes tagF key nonce [] hn]
    dsimp only
    simp
  · rw [noWriteScenario,
      createM_spec tok st0 name t hname hdot hsc htok hfresh]
    dsimp only
    rw [efClose_idle aes tagF key _ _ rfl rfl]
    dsimp only
    rw [alookup_setFile_self]
    rfl
  · rw [noWriteReadScenario,
      createM_spec tok st0 name t hname hdot hsc htok hfresh]
    dsimp only
    rw [efClose_idle aes tagF key _ _ rfl rfl]
    dsimp only
    rw [openM_spec tok _ name t [] hname hdot hsc htok
      (by simp [loadFilemap, alookup_aset_self])
      (alookup_setFile_self _ _ _)]
    dsimp only
    rw [efRead, if_neg (by simp), if_neg (by simp), efInit, if_neg (by simp),
      alookup_setFile_self]
    dsimp only
    rw [drInit, if_pos (by decide)]

theorem empty_write_minimal_envelope_witness :
    emptyWriteScenario cAes cTagF cTok cKey cNonce fsEmpty "e.txt" =
      .ok (cNonce ++ gcmTag cTagF cKey cNonce []) ∧
    (cNonce ++ gcmTag cTagF cKey cNonce []).length = NonceSize + TagSize ∧
    decryptData cAes cTagF cKey (cNonce ++ gcmTag cTagF cKey cNonce []) =
      .ok [] ∧
    emptyReadScenario cAes cTagF cTok cKey cNonce fsEmpty "e.txt" =
      .ok (.error .eofE) ∧
    noWriteScenario cAes cTagF cTok cKey fsEmpty "e.txt" = .ok [] ∧
    noWriteReadScenario cAes cTagF cTok cKey fsEmpty "e.txt" =
      .ok (.error .corrupt) :=
  empty_write_minimal_envelope cAes cTagF cTok cKey cNonce fsEmpty "e.txt"
    "ze.txt" (by decide) (by decide) (by decide) rfl (by decide) (by decide)

/-! ## Claim C4: the rename scenario and the stat side effect -/

theorem collide_hit (m : FilenameMap) (base filename cand : String)
    (k c : Nat) (h : alookup m cand = some filename) :
    collide m base filename cand (k + 1) c = some (cand, false) := by
  rw [collide, h]
  dsimp only
  rw [if_pos rfl]

theorem collide_free (m : FilenameMap) (base filename cand : String)
    (k c : Nat) (h : alookup m cand = none) :
    collide m base filename cand (k + 1) c = some (cand, true) := by
  rw [collide, h]

/-- Obfuscating a name whose token is already bound to it reuses the token
and leaves the state alone. -/
theorem obfuscateFilenameM_hit (tok : String → Except GErr String) (st : FS)
    (dir : Path) (name t : String) (hname : name ≠ "")
    (hsc : sidecarName name = false) (htok : tok name = .ok t)
    (hbound : alookup (loadFilemap st dir) t = some name) :
    obfuscateFilenameM tok st dir name = (.ok t, st) := by
  rw [obfuscateFilenameM, if_neg hname, if_neg (by simp [hsc]), htok]
  dsimp only
  rw [collide_hit _ _ _ _ _ _ hbound]

/-- Obfuscating a fresh name in the root directory: the binding is
persisted and the root sidecar directory ensured. -/
theorem obfuscateFilenameM_fresh_root (tok : String → Except GErr String)
    (st : FS) (name t : String) (hname : name ≠ "")
    (hsc : sidecarName name = false) (htok : tok name = .ok t)
    (hfresh : alookup (loadFilemap st []) t = none) :
    obfuscateFilenameM tok st [] name =
      (.ok t, { backend := addDir st.backend [GrainFSDir],
                filemaps := aset st.filemaps []
                  (aset (loadFilemap st []) t name) }) := by
  rw [obfuscateFilenameM, if_neg hname, if_neg (by simp [hsc]), htok]
  dsimp only
  rw [collide_free _ _ _ _ _ _ hfresh]
  dsimp only
  rw [updateFilemap, ensureGrainFSDir, getObfuscatedPath, getObfuscatedPathAux]
  dsimp only
  rw [saveFilemap, getObfuscatedPath, getObfuscatedPathAux]
  dsimp only
  simp [loadFilemap]

/-- Translating a single-component path whose token is already bound. -/
theorem getObfPath_single_hit (tok : String → Except GErr String) (st : FS)
    (name t : String) (hname : name ≠ "") (hdot : name ≠ ".")
    (hsc : sidecarName name = false) (htok : tok name = .ok t)
    (hbound : alookup (loadFilemap st []) t = some name) :
    getObfuscatedPath tok st [name] = (.ok [t], st) := by
  rw [getObfuscatedPath, getObfuscatedPathAux,
    if_neg (by simp [hname, hdot])]
  rw [obfuscateFilenameM_hit tok st [] name t hname hsc htok hbound]
  dsimp only
  rw [getObfuscatedPathAux]
  simp

theorem loadFilemap_store (b : Backend) (l : List (Path × FilenameMap))
    (d : Path) (m : FilenameMap) :
    loadFilemap { backend := b, filemaps := aset l d m } d = m := by
  simp [loadFilemap, alookup_aset_self]

/-- Full evaluation of the rename scenario: after create/write/close of
`old.txt` and a rename to `new.txt`, stat on the old name fails with
`notFound` but re-inserts a filemap binding for the old token, reading the
new name returns the original byte, and the root filemap ends with TWO
entries: the new binding first, the re-inserted old one second. -/
theorem renameScenario_eval (aes : List Nat → List Nat → List Nat)
    (tagF : List Nat → List Nat → List Nat → List Nat)
    (tok : String → Except GErr String) (key nonce : List Nat)
    (t1 t2 : String)
    (h1 : tok "old.txt" = .ok t1) (h2 : tok "new.txt" = .ok t2)
    (hne : t1 ≠ t2) (hg : t1 ≠ GrainFSDir) (hn : nonce.length = NonceSize) :
    renameScenario aes tagF tok key nonce =
      .ok (.error .notFound, .ok [88], [(t2, "new.txt"), (t1, "old.txt")]) := by
  rw [renameScenario,
    createM_spec tok fsEmpty "old.txt" t1 (by decide) (by decide) (by decide)
      h1 rfl]
  dsimp only
  rw [efWrite_fresh key nonce _ _ [88] [] rfl rfl rfl
    (alookup_setFile_self _ _ _)]
  dsimp only
  rw [List.nil_append, List.nil_append]
  rw [efClose_writer aes tagF key _ _ nonce rfl rfl
    (alookup_setFile_self _ _ _)]
  dsimp only
  simp only [fsEmpty, setFile, addDir, aset, loadFilemap, alookup,
    Option.getD_none, List.not_mem_nil, ite_false, ite_true,
    List.cons.injEq, reduceCtorEq, if_neg, if_pos]
  rw [renameM, if_neg (by decide)]
  rw [getObfPath_single_hit tok _ "old.txt" t1 (by decide) (by decide)
    (by decide) h1 (by simp [loadFilemap, alookup])]
  dsimp only
  rw [show (["new.txt"] : Path).dropLast = ([] : Path) from rfl,
    show (["new.txt"] : Path).getLastD "." = "new.txt" from rfl,
    show (["old.txt"] : Path).dropLast = ([] : Path) from rfl,
    show ([t1] : Path).getLastD "." = t1 from rfl]
  rw [obfuscateFilenameM_fresh_root tok _ "new.txt" t2 (by decide)
    (by decide) h2 (by simp [loadFilemap, alookup, hne])]
  dsimp only
  simp only [addDir, aset, loadFilemap, alookup, setFile, List.mem_cons,
    List.not_mem_nil, or_false, ite_true, ite_false, Option.getD_some,
    Option.getD_none, List.cons.injEq, and_true, eq_self_iff_true, if_pos]
  rw [if_neg hne]
  rw [getObfuscatedPath, getObfuscatedPathAux]
  dsimp only
  rw [List.nil_append, bRename]
  simp only [alookup, removeFile, aerase, setFile, aset, List.filter,
    eq_self_iff_true, ite_true, decide_not, decide_True, Bool.not_true,
    List.filter_nil]
  rw [removeFromFilemap, saveFilemap, getObfuscatedPath, getObfuscatedPathAux]
  dsimp only
  simp only [loadFilemap, alookup, aerase, List.filter, aset,
    eq_self_iff_true, ite_true, ite_false, decide_not, decide_True,
    decide_False, Bool.not_true, Bool.not_false, List.filter_nil,
    Option.getD_some, Ne.symm hne]
  rw [statM, getObfuscatedPath, getObfuscatedPathAux, if_neg (by decide)]
  rw [obfuscateFilenameM_fresh_root tok _ "old.txt" t1 (by decide)
    (by decide) h1 (by simp [loadFilemap, alookup, Ne.symm hne])]
  dsimp only
  rw [getObfuscatedPathAux]
  dsimp only
  simp only [addDir, aset, alookup, loadFilemap, List.mem_cons,
    List.not_mem_nil, or_false, ite_true, ite_false, Option.getD_some,
    Option.getD_none, List.cons.injEq, and_true, eq_self_iff_true,
    List.nil_append]
  rw [if_neg (Ne.symm hne)]
  rw [if_neg (show ¬ bStat
      { files := [([t2], nonce ++ gcmSeal aes tagF key nonce [88])],
        dirs := [[GrainFSDir]] } [t1] = true from by
    simp [bStat, leadsTo, Ne.symm hne, Ne.symm hg])]
  dsimp only
  rw [openM_spec tok _ "new.txt" t2
    (nonce ++ gcmSeal aes tagF key nonce [88]) (by decide) (by decide)
    (by decide) h2 (by simp [loadFilemap, alookup])
    (by simp [alookup])]
  dsimp only
  have hr := efReadAll_spec aes tagF key
    { backend :=
        { files := [([t2], nonce ++ gcmSeal aes tagF key nonce [88])],
          dirs := [[GrainFSDir]] },
      filemaps := [([], [(t2, "new.txt"), (t1, "old.txt")])] }
    { obfuscated := [t2], filename := ["new.txt"], flag := 0,
      isWriteMode := false }
    (nonce ++ gcmSeal aes tagF key nonce [88]) [88] rfl rfl rfl
    (by simp [alookup])
    (drInit_envelope aes tagF key nonce [88] hn)
    (by
      have : (gcmSeal aes tagF key nonce [88]).length = 1 + TagSize := by
        simp [gcmSeal, gcmKeystream_length, padTo_length, gcmTag]
      simp [this]
      omega)
  obtain ⟨hr1, hr2⟩ := hr
  rcases hra : efReadAll aes tagF key
    { backend :=
        { files := [([t2], nonce ++ gcmSeal aes tagF key nonce [88])],
          dirs := [[GrainFSDir]] },
      filemaps := [([], [(t2, "new.txt"), (t1, "old.txt")])] }
    { obfuscated := [t2], filename := ["new.txt"], flag := 0,
      isWriteMode := false }
    with ⟨r, st6, f6⟩
  rw [hra] at hr1 hr2
  dsimp only at hr1 hr2
  rw [hr1, hr2]
  simp [loadFilemap, alookup]

/-- C4: after creating `old.txt` with content "X" and renaming it to
`new.txt`, stat("old.txt") returns notFound and reading `new.txt` yields
"X" — but the root filemap then holds two entries, not one: stat on the
missing old name re-inserted a mapping for its token. The claim's final
clause (exactly one entry, for "new.txt") is corrected to this two-entry
map. -/
theorem rename_scenario_two_entries (aes : List Nat → List Nat → List Nat)
    (tagF : List Nat → List Nat → List Nat → List Nat)
    (tok : String → Except GErr String) (key nonce : List Nat)
    (t1 t2 : String)
    (h1 : tok "old.txt" = .ok t1) (h2 : tok "new.txt" = .ok t2)
    (hne : t1 ≠ t2) (hg : t1 ≠ GrainFSDir) (hn : nonce.length = NonceSize) :
    renameScenario aes tagF tok key nonce =
      .ok (.error .notFound, .ok [88], [(t2, "new.txt"), (t1, "old.txt")]) :=
  renameScenario_eval aes tagF tok key nonce t1 t2 h1 h2 hne hg hn

theorem rename_scenario_two_entries_witness :
    renameScenario cAes cTagF cTok cKey cNonce =
      .ok (.error .notFound, .ok [88],
        [("znew.txt", "new.txt"), ("zold.txt", "old.txt")]) :=
  rename_scenario_two_entries cAes cTagF cTok cKey cNonce "zold.txt"
    "znew.txt" rfl rfl (by decide) (by decide) (by decide)

/-- C4 counterexample to the claim as stated: at the end of the rename
scenario the root filemap's cleartext values are ["new.txt", "old.txt"] —
two entries, not exactly one entry for "new.txt". The stat call on the
renamed-away name re-populates the map. -/
theorem rename_scenario_filemap_not_single :
    (renameScenario cAes cTagF cTok cKey cNonce).map
        (fun r => r.2.2.map Prod.snd) = .ok ["new.txt", "old.txt"] := by
  rw [renameScenario_eval cAes cTagF cTok cKey cNonce "zold.txt" "znew.txt"
    rfl rfl (by decide) (by decide) (by decide)]
  rfl

end GrainVerify
